import Mathlib

/-!
# simmer: the event state machine of `src/event.h`

A shallow embedding of the four event kinds of `event.h` (skip, seize, release, timeout)
and of their `try_to_start` / `stop` transitions, followed by theorems about them.

Modelling conventions.

* A C++ `double` is a rational number (`ℚ`). The transitions come in two forms:
  `try_to_start` computes sums and differences exactly; `try_to_start_rounded fl` applies
  the rounding `fl` to the result of every operation on doubles, and `round_to_double` is
  the rounding of IEEE 754 binary64 (to nearest, ties to even). The claims whose truth
  depends on the rounding are settled on the rounded form. NaN and infinities are outside
  the model.
* The implicit conversion `double -> int` (`int server_usage = ...get_last_value()`)
  is `double_to_int`: truncation toward zero when the truncated value fits a 32-bit `int`.
  For other values C++ leaves the conversion undefined; the model takes the value the
  conversion yields in compiled code on x86-64, `INT_MIN`. Statements that depend on a
  conversion say whether the level is `in_int_range`.
* The pointer `double *now` is the field `World.now`: a transition reads it, may write it,
  and returns the world it leaves behind.
* `get_resource(resource_name, parent_entity->sim)` is declared in `event.h` and defined
  elsewhere; the resource it returns is the field `World.resource`, so the lookup is taken
  to succeed.
* A `throw` is the outcome `Outcome.threw`, carrying the message and the state at the throw.
-/

set_option exponentiation.threshold 2100
set_option maxRecDepth 100000

namespace Simmer

/-! ## External collaborators -/

/-- Modelled from the spec: the class `Monitor` is not part of `event.h`. It is "an
append-only time-stamped level recorder exposing last recorded level, increment level at
time t, decrement level at time t, record absolute level at time t". A record is a pair
`(time, level)`; the newest record is the last element of the list. -/
structure Monitor where
  records : List (ℚ × ℚ)
deriving DecidableEq, Repr

/-- Modelled from the spec: "last recorded level"; a monitor without records is at level 0. -/
def Monitor.get_last_value (m : Monitor) : ℚ :=
  match m.records.getLast? with
  | some r => r.2
  | none => 0

/-- Modelled from the spec: "record absolute level at time t". -/
def Monitor.record (m : Monitor) (time level : ℚ) : Monitor :=
  ⟨m.records ++ [(time, level)]⟩

/-- Modelled from the spec: "increment level at time t". -/
def Monitor.record_increment (m : Monitor) (time amount : ℚ) : Monitor :=
  m.record time (m.get_last_value + amount)

/-- Modelled from the spec: "decrement level at time t". -/
def Monitor.record_decrement (m : Monitor) (time amount : ℚ) : Monitor :=
  m.record time (m.get_last_value - amount)

/-- Modelled from the spec: the class `Resource` is not part of `event.h`. It is "a named
finite-capacity server with an associated waiting line; owns two Monitors (server
occupancy, queue occupancy), a capacity, a queue-size bound (0 = no queue, negative =
unbounded), and the timestamp of its last release". -/
structure Resource where
  name : String
  capacity : ℚ
  queue_size : Int
  serve_mon : Monitor
  queue_mon : Monitor
  last_release : ℚ
deriving DecidableEq, Repr

/-! ## Events -/

/-- The data members of `class Event` (event.h:18-23). The back-reference `parent_entity`
is not a field: the entity is part of the `World` a transition runs in. -/
structure Event where
  description : String
  type : String
  enqueued : Bool
  early_start_time : ℚ
  end_time : ℚ
  processing : Bool
  finished : Bool
deriving DecidableEq, Repr

/-- The class `SkipEvent` (event.h:39-69). -/
structure SkipEvent extends Event where
  n_events : Int
deriving DecidableEq, Repr

/-- The class `SeizeEvent` (event.h:72-132). -/
structure SeizeEvent extends Event where
  resource_name : String
  resource_amount : ℚ
deriving DecidableEq, Repr

/-- The class `ReleaseEvent` (event.h:136-174). -/
structure ReleaseEvent extends Event where
  resource_name : String
  resource_amount : ℚ
deriving DecidableEq, Repr

/-- The class `TimeoutEvent` (event.h:179-212). -/
structure TimeoutEvent extends Event where
  duration : ℚ
deriving DecidableEq, Repr

/-- An `Event*` held in an entity's pending queue: one of the four concrete kinds. -/
inductive AnyEvent where
  | skip (e : SkipEvent)
  | seize (e : SeizeEvent)
  | release (e : ReleaseEvent)
  | timeout (e : TimeoutEvent)
deriving DecidableEq, Repr

/-- Modelled from the spec: the class `Entity` is not part of `event.h`. It "owns a
pending-event queue, a back-reference to the simulator, an own-state Monitor, and a leave
flag used for forced drop-out". The simulator reference is only used for the resource
lookup, which `World.resource` stands for. -/
structure Entity where
  leave : Bool
  monitor : Monitor
  events : List AnyEvent
deriving DecidableEq, Repr

/-- What a transition of an event reads and writes besides the event itself: the resource
`get_resource` resolves to, the owning entity, and the clock cell `*now`. -/
structure World where
  resource : Resource
  parent_entity : Entity
  now : ℚ
deriving DecidableEq, Repr

/-- How a call ends: it returns a `bool`, or it throws a `std::runtime_error`. Either way
the outcome carries the event and the world as the call leaves them. -/
inductive Outcome (ε : Type) where
  | returned (value : Bool) (self : ε) (w : World)
  | threw (what : String) (self : ε) (w : World)
deriving DecidableEq, Repr

/-- The returned `bool`, when the call returns. -/
def Outcome.value? {ε : Type} : Outcome ε → Option Bool
  | .returned b _ _ => some b
  | .threw _ _ _ => none

/-- The message of the exception, when the call throws. -/
def Outcome.what? {ε : Type} : Outcome ε → Option String
  | .returned _ _ _ => none
  | .threw m _ _ => some m

/-- The event after the call. -/
def Outcome.self {ε : Type} : Outcome ε → ε
  | .returned _ s _ => s
  | .threw _ s _ => s

/-- The world after the call. -/
def Outcome.world {ε : Type} : Outcome ε → World
  | .returned _ _ w => w
  | .threw _ _ w => w

/-- The least value of a 32-bit `int`. -/
def INT_MIN : Int := -2147483648

/-- The greatest value of a 32-bit `int`. -/
def INT_MAX : Int := 2147483647

/-- The values whose conversion to `int` is defined: those that, with the fractional part
discarded, lie between `INT_MIN` and `INT_MAX`. -/
@[reducible] def in_int_range (x : ℚ) : Prop :=
  (INT_MIN : ℚ) - 1 < x ∧ x < (INT_MAX : ℚ) + 1

/-- The conversion `double -> int` of C++ into the 32-bit `int` of event.h:94-95: the
fractional part is discarded (truncation toward zero). When the truncated value does not
fit an `int` the conversion is undefined in C++; the result here is `INT_MIN`, the value
the x86-64 conversion instruction yields. -/
def double_to_int (x : ℚ) : Int :=
  let t := Int.tdiv x.num x.den
  if INT_MIN ≤ t ∧ t ≤ INT_MAX then t else INT_MIN

/-- Modelled from the spec: `Entity::get_event` is not part of `event.h`. It "pops and
transfers ownership of the next pending event". The spec does not say what it does on an
empty queue; here it yields no event and leaves the queue empty. -/
def Entity.get_event (ent : Entity) : Option AnyEvent × Entity :=
  match ent.events with
  | [] => (none, ent)
  | e :: rest => (some e, { ent with events := rest })

/-- The method `SkipEvent::try_to_start` (event.h:53-62). The loop body runs `n_events`
times when `n_events` is positive and not at all otherwise; the popped event is deleted,
so only the entity that `get_event` leaves behind is kept. -/
def SkipEvent.try_to_start (self : SkipEvent) (w : World) : Outcome SkipEvent :=
  let ent := (fun (e : Entity) => e.get_event.2)^[self.n_events.toNat] w.parent_entity
  .returned true { self with end_time := w.now } { w with parent_entity := ent }

/-- The method `SkipEvent::stop` (event.h:64-66). -/
def SkipEvent.stop (self : SkipEvent) (w : World) : Outcome SkipEvent :=
  .returned true self w

/-- The method `SeizeEvent::try_to_start` (event.h:91-127). -/
def SeizeEvent.try_to_start (self : SeizeEvent) (w : World) : Outcome SeizeEvent :=
  let resource := w.resource
  let server_usage : Int := double_to_int resource.serve_mon.get_last_value
  let queue_usage : Int := double_to_int resource.queue_mon.get_last_value
  if self.early_start_time > w.now then .returned false self w
  else
    -- this customer cannot be served now (event.h:114-126)
    let blocked : Outcome SeizeEvent :=
      if self.enqueued then .returned false self w
      else if resource.queue_size ≠ 0 ∧
          (resource.queue_size < 0 ∨ resource.queue_size > queue_usage) then
        .returned false { self with enqueued := true }
          { w with resource :=
              { resource with
                queue_mon := resource.queue_mon.record_increment w.now self.resource_amount } }
      else
        .returned false self
          { w with parent_entity := { w.parent_entity with leave := true } }
    -- another customer can be served (event.h:99-113)
    if resource.capacity ≥ (server_usage : ℚ) + self.resource_amount then
      if self.enqueued = true ∨ queue_usage = 0 then
        let now' : ℚ :=
          if self.enqueued then
            if self.early_start_time ≤ resource.last_release then resource.last_release
            else w.now
          else w.now
        let queue_mon' : Monitor :=
          if self.enqueued then resource.queue_mon.record_decrement now' self.resource_amount
          else resource.queue_mon
        .returned true { self with end_time := now', enqueued := false }
          { w with
            now := now'
            resource :=
              { resource with
                queue_mon := queue_mon'
                serve_mon := resource.serve_mon.record_increment now' self.resource_amount } }
      else blocked
    else blocked

/-- The method `SeizeEvent::stop` (event.h:129-131). -/
def SeizeEvent.stop (self : SeizeEvent) (w : World) : Outcome SeizeEvent :=
  .returned true self w

/-- The method `ReleaseEvent::try_to_start` (event.h:156-169). -/
def ReleaseEvent.try_to_start (self : ReleaseEvent) (w : World) : Outcome ReleaseEvent :=
  if self.early_start_time > w.now then .returned false self w
  else
    let resource := w.resource
    if resource.serve_mon.get_last_value - self.resource_amount ≥ 0 then
      .returned true { self with end_time := w.now }
        { w with
          resource :=
            { resource with
              serve_mon := resource.serve_mon.record_decrement w.now self.resource_amount
              last_release := w.now } }
    else .threw "trying to release more resources than capacity" self w

/-- The method `ReleaseEvent::stop` (event.h:171-173). -/
def ReleaseEvent.stop (self : ReleaseEvent) (w : World) : Outcome ReleaseEvent :=
  .returned true self w

/-- The method `TimeoutEvent::try_to_start` (event.h:195-201). -/
def TimeoutEvent.try_to_start (self : TimeoutEvent) (w : World) : Outcome TimeoutEvent :=
  if self.early_start_time > w.now then .returned false self w
  else
    .returned true { self with end_time := w.now + self.duration }
      { w with
        parent_entity :=
          { w.parent_entity with monitor := w.parent_entity.monitor.record w.now 1 } }

/-- The method `TimeoutEvent::stop` (event.h:204-207). -/
def TimeoutEvent.stop (self : TimeoutEvent) (w : World) : Outcome TimeoutEvent :=
  .returned true self
    { w with
      parent_entity :=
        { w.parent_entity with monitor := w.parent_entity.monitor.record w.now 0 } }

/-! ## Constructors -/

/-- The constructor `SkipEvent::SkipEvent` (event.h:43-49). It assigns `n_events`,
`end_time`, `type` and `enqueued`; `description` is default-constructed (the empty
string); the members it does not assign (`early_start_time`, `processing`, `finished`)
keep what the storage `raw` holds. -/
def SkipEvent.new (raw : Event) (n : Int) : SkipEvent :=
  { raw with
    description := ""
    n_events := n
    end_time := -1
    type := "SkipEvent"
    enqueued := false }

/-- The constructor `SeizeEvent::SeizeEvent` (event.h:78-85). It assigns `end_time`,
`resource_name`, `resource_amount`, `type` and `enqueued`; `description` is
default-constructed (the empty string); the members it does not assign
(`early_start_time`, `processing`, `finished`) keep what the storage `raw` holds. -/
def SeizeEvent.new (raw : Event) (res : String) (res_amount : ℚ) : SeizeEvent :=
  { raw with
    description := ""
    end_time := -1
    resource_name := res
    resource_amount := res_amount
    type := "SeizeEvent"
    enqueued := false }

/-- The constructor `ReleaseEvent::ReleaseEvent` (event.h:145-152); unassigned members as for
`SeizeEvent.new`. -/
def ReleaseEvent.new (raw : Event) (res : String) (res_amount : ℚ) : ReleaseEvent :=
  { raw with
    description := ""
    end_time := -1
    resource_name := res
    resource_amount := res_amount
    type := "ReleaseEvent"
    enqueued := false }

/-- The constructor `TimeoutEvent::TimeoutEvent` (event.h:185-191); unassigned members as for
`SeizeEvent.new`. -/
def TimeoutEvent.new (raw : Event) (time_units : ℚ) : TimeoutEvent :=
  { raw with
    description := ""
    end_time := -1
    duration := time_units
    type := "TimeoutEvent"
    enqueued := false }

/-- The scheduler sets `early_start_time` before an attempt. -/
def SeizeEvent.schedule (self : SeizeEvent) (t : ℚ) : SeizeEvent :=
  { self with early_start_time := t }

/-- The scheduler sets `early_start_time` before an attempt. -/
def ReleaseEvent.schedule (self : ReleaseEvent) (t : ℚ) : ReleaseEvent :=
  { self with early_start_time := t }

/-- The scheduler sets `early_start_time` before an attempt. -/
def TimeoutEvent.schedule (self : TimeoutEvent) (t : ℚ) : TimeoutEvent :=
  { self with early_start_time := t }

/-! ## Concrete runs -/

/-- Some storage contents for the members a constructor leaves unassigned. -/
def raw_event : Event := ⟨"", "", true, 0, 0, false, false⟩

/-- A resource named "server" nobody has used yet: both monitors without records. -/
def idle_resource (capacity : ℚ) (queue_size : Int) : Resource :=
  ⟨"server", capacity, queue_size, ⟨[]⟩, ⟨[]⟩, 0⟩

/-- An entity with nothing pending, not asked to leave. -/
def idle_entity : Entity := ⟨false, ⟨[]⟩, []⟩

/-- A new request for one unit of "server", scheduled for time `t`. -/
def unit_request (t : ℚ) : SeizeEvent :=
  (SeizeEvent.new raw_event "server" 1).schedule t

/-- A new request for half a unit of "server", scheduled for time `t`. -/
def half_request (t : ℚ) : SeizeEvent :=
  (SeizeEvent.new raw_event "server" (1/2)).schedule t

/-- A new release of one unit of "server", scheduled for time `t`. -/
def unit_release (t : ℚ) : ReleaseEvent :=
  (ReleaseEvent.new raw_event "server" 1).schedule t

/-- Time 0 at an idle resource of capacity 1 with an unbounded queue. -/
def idle_world : World := ⟨idle_resource 1 (-1), idle_entity, 0⟩

/-- A first entity seizes half a unit at time 0. -/
def half_seize : Outcome SeizeEvent :=
  (half_request 0).try_to_start idle_world

/-- After `half_seize`: the world in which a second entity asks for a whole unit. -/
def oversell_world : World := ⟨half_seize.world.resource, idle_entity, 0⟩

/-- After `half_seize`: a second entity seizes one whole unit at time 0. -/
def oversell_seize : Outcome SeizeEvent :=
  (unit_request 0).try_to_start oversell_world

/-- Entity A seizes one unit at time 0. -/
def first_seize : Outcome SeizeEvent :=
  (unit_request 0).try_to_start idle_world

/-- After `first_seize`: the world in which another entity arrives at time 0. -/
def busy_world : World := ⟨first_seize.world.resource, idle_entity, 0⟩

/-- After `first_seize`: entity B asks for half a unit at time 0 (and has to wait). -/
def half_wait : Outcome SeizeEvent :=
  (half_request 0).try_to_start busy_world

/-- After `half_wait`: entity A releases its unit at time 5. -/
def half_wait_release : Outcome ReleaseEvent :=
  (unit_release 5).try_to_start
    ⟨half_wait.world.resource, first_seize.world.parent_entity, 5⟩

/-- After `half_wait_release`: the world in which a new entity C arrives at time 5. -/
def bypass_world : World := ⟨half_wait_release.world.resource, idle_entity, 5⟩

/-- After `half_wait_release`: C asks for one unit at time 5, while B still waits. -/
def bypass_seize : Outcome SeizeEvent :=
  (unit_request 5).try_to_start bypass_world

/-- After `first_seize`: entity B asks for one unit at time 0 (and has to wait). -/
def second_seize : Outcome SeizeEvent :=
  (unit_request 0).try_to_start busy_world

/-- After `second_seize`: the world in which entity A releases at time 5. -/
def release_world : World :=
  ⟨second_seize.world.resource, first_seize.world.parent_entity, 5⟩

/-- After `second_seize`: entity A releases its unit at time 5. -/
def first_release : Outcome ReleaseEvent :=
  (unit_release 5).try_to_start release_world

/-- B's waiting request, rescheduled for time 5. -/
def retry_event : SeizeEvent := second_seize.self.schedule 5

/-- After `first_release`: the world in which B is retried at time 5. -/
def retry_world : World :=
  ⟨first_release.world.resource, second_seize.world.parent_entity, 5⟩

/-- After `first_release`: B is retried at time 5 with `early_start_time` 5. -/
def second_retry : Outcome SeizeEvent :=
  retry_event.try_to_start retry_world

/-- After `first_release`, B still waiting: the world in which a new entity C arrives. -/
def latecomer_world : World := ⟨first_release.world.resource, idle_entity, 5⟩

/-- After `first_release`, B still waiting: C asks for one unit at time 5. -/
def latecomer_seize : Outcome SeizeEvent :=
  (unit_request 5).try_to_start latecomer_world

/-- After `latecomer_seize`: the same call again, nothing changed in between. -/
def latecomer_retry : Outcome SeizeEvent :=
  latecomer_seize.self.try_to_start latecomer_seize.world

/-- Capacity 2, no queue: a first entity seizes one unit at time 0. -/
def crowd_first : Outcome SeizeEvent :=
  (unit_request 0).try_to_start ⟨idle_resource 2 0, idle_entity, 0⟩

/-- After `crowd_first`: a second entity seizes one unit at time 0. -/
def crowd_second : Outcome SeizeEvent :=
  (unit_request 0).try_to_start ⟨crowd_first.world.resource, idle_entity, 0⟩

/-- After `crowd_second`: the world in which a third entity arrives at time 0. -/
def crowd_third_world : World := ⟨crowd_second.world.resource, idle_entity, 0⟩

/-- After `crowd_second`: a third entity asks for one unit at time 0. -/
def crowd_third : Outcome SeizeEvent :=
  (unit_request 0).try_to_start crowd_third_world

/-- A timeout of 3 time units, scheduled for time `t`. -/
def short_timeout (t : ℚ) : TimeoutEvent :=
  (TimeoutEvent.new raw_event 3).schedule t

/-! ## Runs of several calls -/

/-- The scheduler sets `early_start_time` before an attempt. -/
def SkipEvent.schedule (self : SkipEvent) (t : ℚ) : SkipEvent :=
  { self with early_start_time := t }

/-- A run of attempts none of which returns true: before each attempt the scheduler sets
`early_start_time`, and the attempt runs in whatever world the rest of the simulation has
produced by then. The result is the event after the last attempt, or `none` as soon as an
attempt returns true. -/
def refused_run {ε : Type} (step : ε → World → Outcome ε) (schedule : ε → ℚ → ε) :
    ε → List (ℚ × World) → Option ε
  | e, [] => some e
  | e, (t, w) :: rest =>
    if (step (schedule e t) w).value? = some true then none
    else refused_run step schedule (step (schedule e t) w).self rest

/-- One resource and the seize events that compete for it, each with its owning entity. -/
structure System where
  resource : Resource
  requests : List (SeizeEvent × Entity)
deriving DecidableEq, Repr

/-- One call made by the scheduler: `try_to_start` on the request at position `i`, after
setting its `early_start_time`, or `try_to_start` on some release event of the resource. -/
inductive Call where
  | seize (i : Nat) (early_start_time now : ℚ)
  | release (e : ReleaseEvent) (ent : Entity) (now : ℚ)
deriving DecidableEq, Repr

/-- What a request contributes to the waiting line: its amount while it is enqueued. -/
def SeizeEvent.queued_amount (e : SeizeEvent) : ℚ :=
  if e.enqueued then e.resource_amount else 0

/-- The sum of the amounts of the requests whose `enqueued` flag is true. -/
def System.queued_amount (s : System) : ℚ :=
  (s.requests.map (fun p => p.1.queued_amount)).sum

/-! ## The queue admission test -/

/-- The test of event.h:118-119, on `queue_size` and on the queue level `q` that line 95
reads into `int queue_usage`. -/
def queue_admission_test (queue_size : Int) (q : ℚ) : Bool :=
  decide (queue_size ≠ 0 ∧ (queue_size < 0 ∨ queue_size > double_to_int q))

/-- The same test in the words of the spec, on the recorded level: "allowed iff
`queue_size != 0` AND (`queue_size < 0` OR `queue_size > queue_usage`)", where
`queue_usage = queue_mon.last_value()`. -/
def queue_admission_spec (queue_size : Int) (q : ℚ) : Bool :=
  decide (queue_size ≠ 0 ∧ (queue_size < 0 ∨ (queue_size : ℚ) > q))

/-! ## More concrete runs -/

/-- An entity with three pending events. -/
def three_pending : Entity :=
  ⟨false, ⟨[]⟩,
    [.timeout (short_timeout 0), .seize (unit_request 0), .release (unit_release 0)]⟩

/-- A skip of two events, scheduled for time 9. -/
def skip_two : SkipEvent := (SkipEvent.new raw_event 2).schedule 9

/-- A resource with a name of its own, capacity 1, nobody served. -/
def named_resource (name : String) : Resource :=
  ⟨name, 1, -1, ⟨[]⟩, ⟨[]⟩, 0⟩

/-- A release of one unit of the resource `name`, scheduled for time 0. -/
def named_release (name : String) : ReleaseEvent :=
  (ReleaseEvent.new raw_event name 1).schedule 0

/-- An over-drawn release on the resource "doctor" by an idle entity. -/
def doctor_release : Outcome ReleaseEvent :=
  (named_release "doctor").try_to_start ⟨named_resource "doctor", idle_entity, 0⟩

/-- An over-drawn release on the resource "nurse" by another entity. -/
def nurse_release : Outcome ReleaseEvent :=
  (named_release "nurse").try_to_start ⟨named_resource "nurse", three_pending, 0⟩

/-- After `second_seize`: B is retried at time 1 while A still holds the unit. -/
def early_retry_event : SeizeEvent := second_seize.self.schedule 1

/-- After `second_seize`: the world in which B is retried at time 1. -/
def early_retry_world : World :=
  ⟨second_seize.world.resource, second_seize.world.parent_entity, 1⟩

/-- A new request for two units of "server", scheduled for time `t`. -/
def pair_request (t : ℚ) : SeizeEvent :=
  (SeizeEvent.new raw_event "server" 2).schedule t

/-- Capacity 2, room for one in the queue: a first entity seizes two units at time 0. -/
def bounded_first : Outcome SeizeEvent :=
  (pair_request 0).try_to_start ⟨idle_resource 2 1, idle_entity, 0⟩

/-- After `bounded_first`: the world in which a second entity arrives at time 0. -/
def bounded_world : World := ⟨bounded_first.world.resource, idle_entity, 0⟩

/-- After `bounded_first`: a second entity asks for two units at time 0. -/
def bounded_second : Outcome SeizeEvent :=
  (pair_request 0).try_to_start bounded_world

/-- After `first_release`, B still waiting: a new entity D asks for half a unit at time 5
and is put in the queue behind B. -/
def late_half : Outcome SeizeEvent :=
  (half_request 5).try_to_start latecomer_world

/-- After `late_half`: D is retried at once and is served, taking half a unit. -/
def late_half_retry : Outcome SeizeEvent :=
  late_half.self.try_to_start late_half.world

/-- After `late_half_retry`: the world in which B, enqueued since time 0, is retried at
time 5. -/
def overdue_world : World :=
  ⟨late_half_retry.world.resource, second_seize.world.parent_entity, 5⟩

/-- After `late_half_retry`: B is retried at time 5 with `early_start_time` 5. -/
def overdue_retry : Outcome SeizeEvent :=
  retry_event.try_to_start overdue_world

/-- After `bounded_second`: the world in which a third entity arrives at time 0; the
queue, of size 1, holds a request for two units. -/
def bounded_third_world : World := ⟨bounded_second.world.resource, idle_entity, 0⟩

/-- A new request for three thousand million units of "server", more than `INT_MAX`,
scheduled for time `t`. -/
def huge_request (t : ℚ) : SeizeEvent :=
  (SeizeEvent.new raw_event "server" 3000000000).schedule t

/-- Capacity 1, room for five in the queue: A seizes the unit at time 0. -/
def overflow_first : Outcome SeizeEvent :=
  (unit_request 0).try_to_start ⟨idle_resource 1 5, idle_entity, 0⟩

/-- After `overflow_first`: B asks for three thousand million units at time 0 and is
enqueued, the queue being empty. -/
def overflow_second : Outcome SeizeEvent :=
  (huge_request 0).try_to_start ⟨overflow_first.world.resource, idle_entity, 0⟩

/-- After `overflow_second`: the world in which C arrives at time 0. -/
def overflow_world : World := ⟨overflow_second.world.resource, idle_entity, 0⟩

/-- After `overflow_second`: C asks for one unit at time 0. -/
def overflow_third : Outcome SeizeEvent :=
  (unit_request 0).try_to_start overflow_world

/-- Capacity three thousand million, unbounded queue: A seizes all of it at time 0. -/
def vast_first : Outcome SeizeEvent :=
  (huge_request 0).try_to_start ⟨idle_resource 3000000000 (-1), idle_entity, 0⟩

/-- After `vast_first`: the world in which B arrives at time 0. -/
def vast_world : World := ⟨vast_first.world.resource, idle_entity, 0⟩

/-- After `vast_first`: B asks for one unit at time 0. -/
def vast_second : Outcome SeizeEvent :=
  (unit_request 0).try_to_start vast_world

/-! ## Double arithmetic -/

/-- Rounding to the nearest integer, a tie going to the even one. -/
def round_half_even (y : ℚ) : Int :=
  if y - ⌊y⌋ < 1/2 then ⌊y⌋
  else if 1/2 < y - ⌊y⌋ then ⌊y⌋ + 1
  else if ⌊y⌋ % 2 = 0 then ⌊y⌋ else ⌊y⌋ + 1

/-- The power of two `2 ^ e`, for an integer exponent. -/
def pow2 (e : Int) : ℚ :=
  if 0 ≤ e then ((2 ^ e.toNat : ℕ) : ℚ) else 1 / ((2 ^ (-e).toNat : ℕ) : ℚ)

/-- Bisection for the greatest exponent `k` in `lo .. lo + 2 ^ fuel - 1` with
`2 ^ k <= x`, or `lo` when there is none. -/
def binade_search (x : ℚ) : Nat → Int → Int
  | 0, lo => lo
  | fuel + 1, lo =>
    if pow2 (lo + 2 ^ fuel) ≤ x then binade_search x fuel (lo + 2 ^ fuel)
    else binade_search x fuel lo

/-- The exponent of the binade of `x` in the binary64 format: the greatest `e` with
`2 ^ e <= |x|`, kept within the exponent range of the format, `-1022 .. 1025` (at -1022
lie the subnormal numbers and zero). -/
def binade (x : ℚ) : Int := binade_search |x| 11 (-1022)

/-- The distance between neighbouring doubles in the binade of `x`: 53 significant
bits. -/
def ulp (x : ℚ) : ℚ := pow2 (binade x - 52)

/-- The double nearest to `x`: IEEE 754 binary64, round to nearest, ties to even, which
is what every arithmetic operation on `double` applies to its exact result. Results
beyond the largest finite double, where the format gives an infinity, are outside the
model. -/
def round_to_double (x : ℚ) : ℚ :=
  round_half_even (x / ulp x) * ulp x

/-- Modelled from the spec: "increment level at time t", with the sum computed in the
arithmetic whose rounding is `fl`. -/
def Monitor.record_increment_rounded (fl : ℚ → ℚ) (m : Monitor) (time amount : ℚ) :
    Monitor :=
  m.record time (fl (m.get_last_value + amount))

/-- Modelled from the spec: "decrement level at time t", with the difference computed in
the arithmetic whose rounding is `fl`. -/
def Monitor.record_decrement_rounded (fl : ℚ → ℚ) (m : Monitor) (time amount : ℚ) :
    Monitor :=
  m.record time (fl (m.get_last_value - amount))

/-- The method `SeizeEvent::try_to_start` (event.h:91-127) with the result of every
operation on `double` rounded by `fl`: the sum `server_usage + resource_amount` of line
99 and the monitor's increment and decrement. With `fl` the identity this is
`SeizeEvent.try_to_start`; with `fl = round_to_double` it is the method in double
arithmetic. -/
def SeizeEvent.try_to_start_rounded (fl : ℚ → ℚ) (self : SeizeEvent) (w : World) :
    Outcome SeizeEvent :=
  let resource := w.resource
  let server_usage : Int := double_to_int resource.serve_mon.get_last_value
  let queue_usage : Int := double_to_int resource.queue_mon.get_last_value
  if self.early_start_time > w.now then .returned false self w
  else
    -- this customer cannot be served now (event.h:114-126)
    let blocked : Outcome SeizeEvent :=
      if self.enqueued then .returned false self w
      else if resource.queue_size ≠ 0 ∧
          (resource.queue_size < 0 ∨ resource.queue_size > queue_usage) then
        .returned false { self with enqueued := true }
          { w with resource :=
              { resource with
                queue_mon :=
                  resource.queue_mon.record_increment_rounded fl w.now
                    self.resource_amount } }
      else
        .returned false self
          { w with parent_entity := { w.parent_entity with leave := true } }
    -- another customer can be served (event.h:99-113)
    if resource.capacity ≥ fl ((server_usage : ℚ) + self.resource_amount) then
      if self.enqueued = true ∨ queue_usage = 0 then
        let now' : ℚ :=
          if self.enqueued then
            if self.early_start_time ≤ resource.last_release then resource.last_release
            else w.now
          else w.now
        let queue_mon' : Monitor :=
          if self.enqueued then
            resource.queue_mon.record_decrement_rounded fl now' self.resource_amount
          else resource.queue_mon
        .returned true { self with end_time := now', enqueued := false }
          { w with
            now := now'
            resource :=
              { resource with
                queue_mon := queue_mon'
                serve_mon :=
                  resource.serve_mon.record_increment_rounded fl now'
                    self.resource_amount } }
      else blocked
    else blocked

/-- The method `ReleaseEvent::try_to_start` (event.h:156-169) with the result of every
operation on `double` rounded by `fl`: the difference of line 160 and the monitor's
decrement. With `fl` the identity this is `ReleaseEvent.try_to_start`. -/
def ReleaseEvent.try_to_start_rounded (fl : ℚ → ℚ) (self : ReleaseEvent) (w : World) :
    Outcome ReleaseEvent :=
  if self.early_start_time > w.now then .returned false self w
  else
    let resource := w.resource
    if fl (resource.serve_mon.get_last_value - self.resource_amount) ≥ 0 then
      .returned true { self with end_time := w.now }
        { w with
          resource :=
            { resource with
              serve_mon :=
                resource.serve_mon.record_decrement_rounded fl w.now self.resource_amount
              last_release := w.now } }
    else .threw "trying to release more resources than capacity" self w

/-- The system after one call, in the arithmetic whose rounding is `fl`. -/
def System.call_rounded (fl : ℚ → ℚ) (s : System) : Call → System
  | .seize i t now =>
    match s.requests[i]? with
    | none => s
    | some (e, ent) =>
      let o := (e.schedule t).try_to_start_rounded fl ⟨s.resource, ent, now⟩
      { resource := o.world.resource
        requests := s.requests.set i (o.self, o.world.parent_entity) }
  | .release e ent now =>
    { s with resource := (e.try_to_start_rounded fl ⟨s.resource, ent, now⟩).world.resource }

/-- The system after a sequence of calls, in the arithmetic whose rounding is `fl`. -/
def System.run_rounded (fl : ℚ → ℚ) (s : System) (calls : List Call) : System :=
  calls.foldl (System.call_rounded fl) s

/-- The double written 0.1. -/
def tenth : ℚ := round_to_double (1/10)

/-- The double written 0.2. -/
def fifth : ℚ := round_to_double (2/10)

/-- The double written 0.8. -/
def four_fifths : ℚ := round_to_double (8/10)

/-- A new request for `amount` units of "server", scheduled for time `t`. -/
def request_of (amount t : ℚ) : SeizeEvent :=
  (SeizeEvent.new raw_event "server" amount).schedule t

/-- A new release of `amount` units of "server", scheduled for time `t`. -/
def release_of (amount t : ℚ) : ReleaseEvent :=
  (ReleaseEvent.new raw_event "server" amount).schedule t

/-- Capacity 1, in double arithmetic: a first entity seizes 0.1 at time 0. -/
def tenth_seize : Outcome SeizeEvent :=
  (request_of tenth 0).try_to_start_rounded round_to_double idle_world

/-- After `tenth_seize`: the world in which a second entity arrives at time 0. -/
def tenth_world : World := ⟨tenth_seize.world.resource, idle_entity, 0⟩

/-- After `tenth_seize`: a second entity seizes 0.2 at time 0. -/
def fifth_seize : Outcome SeizeEvent :=
  (request_of fifth 0).try_to_start_rounded round_to_double tenth_world

/-- After `fifth_seize`: the world in which the second entity releases at time 1. -/
def fifth_world : World := ⟨fifth_seize.world.resource, fifth_seize.world.parent_entity, 1⟩

/-- After `fifth_seize`: the second entity releases its 0.2 at time 1. -/
def fifth_release : Outcome ReleaseEvent :=
  (release_of fifth 1).try_to_start_rounded round_to_double fifth_world

/-- Capacity 3, unbounded queue, three requests: X for 3, A for 3 and B for 0.8. -/
def three_requests : System :=
  ⟨idle_resource 3 (-1),
    [(request_of 3 0, idle_entity), (request_of 3 0, idle_entity),
      (request_of four_fifths 0, idle_entity)]⟩

/-- X seizes, A and B are enqueued, X releases at time 5 and A is served. -/
def three_requests_calls : List Call :=
  [.seize 0 0 0, .seize 1 0 0, .seize 2 0 0, .release (release_of 3 5) idle_entity 5,
    .seize 1 5 5]

/-- After `three_requests_calls`: A releases at time 6 and B is served. -/
def three_requests_more_calls : List Call :=
  three_requests_calls ++ [.release (release_of 3 6) idle_entity 6, .seize 2 6 6]

/-- Capacity 1, in double arithmetic: a first entity seizes half a unit at time 0. -/
def half_first : Outcome SeizeEvent :=
  (request_of (1/2) 0).try_to_start_rounded round_to_double idle_world

/-- After `half_first`: the world in which a second entity arrives at time 0. -/
def quarter_world : World := ⟨half_first.world.resource, idle_entity, 0⟩

/-- After `half_first`: a second entity seizes a quarter of a unit at time 0. -/
def quarter_seize : Outcome SeizeEvent :=
  (request_of (1/4) 0).try_to_start_rounded round_to_double quarter_world

/-- After `quarter_seize`: the second entity releases its quarter at time 1. -/
def quarter_release : Outcome ReleaseEvent :=
  (release_of (1/4) 1).try_to_start_rounded round_to_double
    ⟨quarter_seize.world.resource, quarter_seize.world.parent_entity, 1⟩

/-- Capacity 1/2, unbounded queue, a request for 1/2 and a request for 3/4. -/
def dyadic_requests : System :=
  ⟨idle_resource (1/2) (-1),
    [(request_of (1/2) 0, idle_entity), (request_of (3/4) 0, idle_entity)]⟩

/-- The first request is served, the second is enqueued. -/
def dyadic_calls : List Call := [.seize 0 0 0, .seize 1 0 0]

/-! ## Lemmas on the monitor and on the conversion to `int` -/

/-- The level after a record is the recorded level. -/
@[simp] theorem Monitor.get_last_value_record (m : Monitor) (t v : ℚ) :
    (m.record t v).get_last_value = v := by
  simp [Monitor.record, Monitor.get_last_value]

/-- The level after an increment. -/
@[simp] theorem Monitor.get_last_value_record_increment (m : Monitor) (t a : ℚ) :
    (m.record_increment t a).get_last_value = m.get_last_value + a := by
  simp [Monitor.record_increment]

/-- The level after a decrement. -/
@[simp] theorem Monitor.get_last_value_record_decrement (m : Monitor) (t a : ℚ) :
    (m.record_decrement t a).get_last_value = m.get_last_value - a := by
  simp [Monitor.record_decrement]

/-- Discarding the fractional part of a nonnegative value is taking its floor. -/
theorem tdiv_num_den_of_nonneg {x : ℚ} (hx : 0 ≤ x) : Int.tdiv x.num x.den = ⌊x⌋ := by
  rw [Rat.floor_def]
  exact Int.tdiv_eq_ediv (Rat.num_nonneg.mpr hx) (Int.ofNat_nonneg _)

/-- On a nonnegative value below `INT_MAX + 1` the conversion is the floor. -/
theorem double_to_int_of_nonneg {x : ℚ} (hx : 0 ≤ x) (hmax : x < (INT_MAX : ℚ) + 1) :
    double_to_int x = ⌊x⌋ := by
  have hlo : (0 : Int) ≤ ⌊x⌋ := Int.floor_nonneg.mpr hx
  have hhi : ⌊x⌋ < INT_MAX + 1 := by
    rw [Int.floor_lt]
    exact_mod_cast hmax
  unfold double_to_int
  simp only [tdiv_num_den_of_nonneg hx]
  rw [if_pos]
  constructor
  · unfold INT_MIN
    omega
  · omega

/-- The conversion of a value that is not positive is not positive. -/
theorem double_to_int_nonpos {x : ℚ} (hx : x ≤ 0) : double_to_int x ≤ 0 := by
  unfold double_to_int
  have h : x.num ≤ 0 := Rat.num_nonpos.mpr hx
  have h2 : (0 : Int) ≤ Int.tdiv (-x.num) x.den :=
    Int.tdiv_nonneg (by omega) (Int.ofNat_nonneg _)
  rw [Int.neg_tdiv] at h2
  simp only
  split_ifs
  · omega
  · unfold INT_MIN
    omega

/-- Within the range of `int`, comparing the converted level with a positive integer is
comparing the level itself. -/
theorem double_to_int_lt_iff (q : ℚ) {n : Int} (hn : 0 < n) (hq : in_int_range q) :
    double_to_int q < n ↔ q < (n : ℚ) := by
  rcases le_or_lt 0 q with h0 | h0
  · rw [double_to_int_of_nonneg h0 hq.2, Int.floor_lt]
  · have h1 : double_to_int q ≤ 0 := double_to_int_nonpos h0.le
    have h2 : (0 : ℚ) < (n : ℚ) := by exact_mod_cast hn
    constructor
    · intro _; linarith
    · intro _; omega

/-- A whole number that fits an `int` is converted to itself. -/
theorem double_to_int_intCast (n : Int) (hmin : INT_MIN ≤ n) (hmax : n ≤ INT_MAX) :
    double_to_int (n : ℚ) = n := by
  unfold double_to_int
  simp [Int.tdiv_one, hmin, hmax]

/-! ## The paths of `SeizeEvent::try_to_start` -/

/-- The early-return path (event.h:96). -/
theorem SeizeEvent.try_to_start_early (self : SeizeEvent) (w : World)
    (h : self.early_start_time > w.now) :
    self.try_to_start w = .returned false self w := by
  unfold SeizeEvent.try_to_start
  simp [h]

/-- The path of a request that stays in the queue (event.h:116). -/
theorem SeizeEvent.try_to_start_waiting (self : SeizeEvent) (w : World)
    (hnow : ¬ self.early_start_time > w.now)
    (hcap : ¬ w.resource.capacity
      ≥ (double_to_int w.resource.serve_mon.get_last_value : ℚ) + self.resource_amount)
    (henq : self.enqueued = true) :
    self.try_to_start w = .returned false self w := by
  unfold SeizeEvent.try_to_start
  simp only
  rw [if_neg hnow, if_neg hcap]
  simp [henq]

/-- The path of a request that joins the queue (event.h:118-121). -/
theorem SeizeEvent.try_to_start_join (self : SeizeEvent) (w : World)
    (hnow : ¬ self.early_start_time > w.now)
    (hadm : ¬ (w.resource.capacity
        ≥ (double_to_int w.resource.serve_mon.get_last_value : ℚ) + self.resource_amount ∧
      double_to_int w.resource.queue_mon.get_last_value = 0))
    (henq : self.enqueued = false)
    (hroom : w.resource.queue_size ≠ 0 ∧ (w.resource.queue_size < 0 ∨
      w.resource.queue_size > double_to_int w.resource.queue_mon.get_last_value)) :
    self.try_to_start w =
      .returned false { self with enqueued := true }
        { w with resource :=
            { w.resource with
              queue_mon :=
                w.resource.queue_mon.record_increment w.now self.resource_amount } } := by
  unfold SeizeEvent.try_to_start
  simp only
  rw [if_neg hnow, if_pos hroom]
  split_ifs <;> simp_all

/-- The path of a request that finds no room (event.h:122-125). -/
theorem SeizeEvent.try_to_start_leave (self : SeizeEvent) (w : World)
    (hnow : ¬ self.early_start_time > w.now)
    (hadm : ¬ (w.resource.capacity
        ≥ (double_to_int w.resource.serve_mon.get_last_value : ℚ) + self.resource_amount ∧
      double_to_int w.resource.queue_mon.get_last_value = 0))
    (henq : self.enqueued = false)
    (hroom : ¬ (w.resource.queue_size ≠ 0 ∧ (w.resource.queue_size < 0 ∨
      w.resource.queue_size > double_to_int w.resource.queue_mon.get_last_value))) :
    self.try_to_start w =
      .returned false self
        { w with parent_entity := { w.parent_entity with leave := true } } := by
  unfold SeizeEvent.try_to_start
  simp only
  rw [if_neg hnow, if_neg hroom]
  split_ifs <;> simp_all

/-- The admission path (event.h:99-112): the call returns true. -/
theorem SeizeEvent.try_to_start_admitted (self : SeizeEvent) (w : World)
    (hnow : ¬ self.early_start_time > w.now)
    (hcap : w.resource.capacity
      ≥ (double_to_int w.resource.serve_mon.get_last_value : ℚ) + self.resource_amount)
    (hturn : self.enqueued = true ∨
      double_to_int w.resource.queue_mon.get_last_value = 0) :
    (self.try_to_start w).value? = some true := by
  unfold SeizeEvent.try_to_start
  simp only
  rw [if_neg hnow, if_pos hcap, if_pos hturn]
  rfl

/-! ## Claims -/

/-- C1: capacity is oversold on the code. On a resource of capacity 1 at server level 0,
a seize of half a unit is admitted (level 1/2, within capacity); the next seize, of one
unit, is admitted too, because the capacity test reads the level 1/2 as the `int` 0, and
the server level becomes 3/2, above the capacity. -/
theorem seize_oversells_after_fractional_seize :
    idle_world.resource.serve_mon.get_last_value = 0 ∧
    (half_request 0).resource_amount ≥ 0 ∧
    half_seize.value? = some true ∧
    oversell_world.resource.serve_mon.get_last_value = 1/2 ∧
    oversell_world.resource.serve_mon.get_last_value ≤ oversell_world.resource.capacity ∧
    (unit_request 0).resource_amount ≥ 0 ∧
    oversell_seize.value? = some true ∧
    oversell_seize.world.resource.serve_mon.get_last_value = 3/2 ∧
    oversell_seize.world.resource.capacity = 1 ∧
    ¬ (oversell_seize.world.resource.serve_mon.get_last_value
        ≤ oversell_seize.world.resource.capacity) := by
  with_unfolding_all decide

/-- C2: the admission rule stated on the recorded levels fails on the code, which tests
the levels after converting them to `int`. With capacity 1, server level 1/2 and an empty
queue, a request of one unit is admitted although `capacity >= level + amount` is false;
and with server level 0 and queue level 1/2 (B waiting for half a unit) a request that is
not enqueued is admitted although the queue level is nonzero. -/
theorem seize_admits_on_truncated_levels :
    (oversell_seize.value? = some true ∧
      ¬ (oversell_world.resource.capacity
          ≥ oversell_world.resource.serve_mon.get_last_value
            + (unit_request 0).resource_amount) ∧
      ¬ (oversell_seize.value? = some true ↔
          (oversell_world.now ≥ (unit_request 0).early_start_time ∧
            oversell_world.resource.capacity
              ≥ oversell_world.resource.serve_mon.get_last_value
                + (unit_request 0).resource_amount ∧
            ((unit_request 0).enqueued = true ∨
              oversell_world.resource.queue_mon.get_last_value = 0)))) ∧
    (half_wait.self.enqueued = true ∧
      bypass_world.resource.queue_mon.get_last_value = 1/2 ∧
      (unit_request 5).enqueued = false ∧
      bypass_seize.value? = some true ∧
      ¬ (bypass_seize.value? = some true ↔
          (bypass_world.now ≥ (unit_request 5).early_start_time ∧
            bypass_world.resource.capacity
              ≥ bypass_world.resource.serve_mon.get_last_value
                + (unit_request 5).resource_amount ∧
            ((unit_request 5).enqueued = true ∨
              bypass_world.resource.queue_mon.get_last_value = 0)))) := by
  with_unfolding_all decide

/-- C3: whenever `SeizeEvent::try_to_start` returns true, `enqueued` is false afterwards,
`end_time` equals `*now` as the call leaves it, the server level has risen by exactly the
amount, the queue level has dropped by exactly the amount if the request was enqueued
and the queue monitor is untouched otherwise, and the entity's leave flag and the
resource's `last_release` are unchanged. -/
theorem seize_start_effects (self : SeizeEvent) (w : World)
    (h : (self.try_to_start w).value? = some true) :
    (self.try_to_start w).self.enqueued = false ∧
    (self.try_to_start w).self.end_time = (self.try_to_start w).world.now ∧
    (self.try_to_start w).world.resource.serve_mon.get_last_value
      = w.resource.serve_mon.get_last_value + self.resource_amount ∧
    (self.enqueued = true →
      (self.try_to_start w).world.resource.queue_mon.get_last_value
        = w.resource.queue_mon.get_last_value - self.resource_amount) ∧
    (self.enqueued = false →
      (self.try_to_start w).world.resource.queue_mon = w.resource.queue_mon) ∧
    (self.try_to_start w).world.parent_entity.leave = w.parent_entity.leave ∧
    (self.try_to_start w).world.resource.last_release = w.resource.last_release := by
  unfold SeizeEvent.try_to_start at h ⊢
  simp only at h ⊢
  split_ifs at h ⊢ <;> simp_all [Outcome.value?, Outcome.self, Outcome.world]

/-- C3 at B's retry (enqueued, admitted at time 5): the queue level drops from 1 to 0 and
the server level rises from 0 to 1. -/
theorem seize_start_effects_witness :
    second_retry.value? = some true ∧
    (second_retry.self.enqueued = false ∧
      second_retry.self.end_time = second_retry.world.now ∧
      second_retry.world.resource.serve_mon.get_last_value
        = retry_world.resource.serve_mon.get_last_value + retry_event.resource_amount ∧
      (retry_event.enqueued = true →
        second_retry.world.resource.queue_mon.get_last_value
          = retry_world.resource.queue_mon.get_last_value - retry_event.resource_amount) ∧
      (retry_event.enqueued = false →
        second_retry.world.resource.queue_mon = retry_world.resource.queue_mon) ∧
      second_retry.world.parent_entity.leave = retry_world.parent_entity.leave ∧
      second_retry.world.resource.last_release = retry_world.resource.last_release) :=
  have h : second_retry.value? = some true := by with_unfolding_all decide
  ⟨h, seize_start_effects retry_event retry_world h⟩

/-- C4, as stated, fails beyond the range of `int`: with capacity 1 taken, `queue_size` 5
and a queue level of three thousand million (B waiting for that amount), a new request
that is not admitted is enqueued, although `queue_size > queue level` is false: the level
does not fit `int queue_usage`, which holds `INT_MIN`. -/
theorem seize_joins_queue_beyond_int_range :
    overflow_first.value? = some true ∧
    overflow_second.self.enqueued = true ∧
    overflow_world.resource.queue_size = 5 ∧
    overflow_world.resource.queue_mon.get_last_value = 3000000000 ∧
    ¬ in_int_range overflow_world.resource.queue_mon.get_last_value ∧
    (unit_request 0).enqueued = false ∧
    overflow_world.now ≥ (unit_request 0).early_start_time ∧
    overflow_third.value? ≠ some true ∧
    overflow_third.self.enqueued = true ∧
    ¬ (overflow_world.resource.queue_size ≠ 0 ∧
        (overflow_world.resource.queue_size < 0 ∨
          (overflow_world.resource.queue_size : ℚ)
            > overflow_world.resource.queue_mon.get_last_value)) := by
  refine ⟨by with_unfolding_all decide, by with_unfolding_all decide,
    by with_unfolding_all decide,
    le_antisymm (by with_unfolding_all decide) (by with_unfolding_all decide), ?_⟩
  with_unfolding_all decide

/-- C4, amended: a request that is not enqueued, is called with `*now >=
early_start_time` and is not admitted, on a resource whose queue level is within the
range of `int`, joins the queue exactly when `queue_size != 0` and (`queue_size < 0` or
`queue_size` exceeds the recorded queue level); whenever it joins, the queue level rises
by exactly the amount, `enqueued` becomes true, the call returns false, and the server
monitor, `end_time` and the entity's leave flag are unchanged. -/
theorem seize_joins_queue_iff (self : SeizeEvent) (w : World)
    (hfresh : self.enqueued = false)
    (hnow : w.now ≥ self.early_start_time)
    (hblocked : (self.try_to_start w).value? ≠ some true) :
    (in_int_range w.resource.queue_mon.get_last_value →
      ((self.try_to_start w).self.enqueued = true ↔
        (w.resource.queue_size ≠ 0 ∧
          (w.resource.queue_size < 0 ∨
            (w.resource.queue_size : ℚ) > w.resource.queue_mon.get_last_value)))) ∧
    ((self.try_to_start w).self.enqueued = true →
      (self.try_to_start w).world.resource.queue_mon.get_last_value
        = w.resource.queue_mon.get_last_value + self.resource_amount ∧
      (self.try_to_start w).value? = some false ∧
      (self.try_to_start w).world.resource.serve_mon = w.resource.serve_mon ∧
      (self.try_to_start w).self.end_time = self.end_time ∧
      (self.try_to_start w).world.parent_entity.leave = w.parent_entity.leave) := by
  have hq : in_int_range w.resource.queue_mon.get_last_value →
      (w.resource.queue_size ≠ 0 ∧ (w.resource.queue_size < 0 ∨
        w.resource.queue_size > double_to_int w.resource.queue_mon.get_last_value) ↔
      (w.resource.queue_size ≠ 0 ∧ (w.resource.queue_size < 0 ∨
        (w.resource.queue_size : ℚ) > w.resource.queue_mon.get_last_value))) := by
    intro hrange
    rcases lt_trichotomy w.resource.queue_size 0 with h | h | h
    · simp [h, h.ne]
    · simp [h]
    · have := double_to_int_lt_iff w.resource.queue_mon.get_last_value h hrange
      simp only [gt_iff_lt, this]
  have hnow' : ¬ self.early_start_time > w.now := not_lt.mpr hnow
  constructor
  · intro hrange
    rw [← hq hrange]
    unfold SeizeEvent.try_to_start at hblocked ⊢
    simp only at hblocked ⊢
    split_ifs at hblocked ⊢ <;> simp_all [Outcome.value?, Outcome.self, Outcome.world]
  · unfold SeizeEvent.try_to_start at hblocked ⊢
    simp only at hblocked ⊢
    split_ifs at hblocked ⊢ <;> simp_all [Outcome.value?, Outcome.self, Outcome.world]

/-- C4, amended, at B's arrival (capacity 1 taken by A, unbounded queue, queue level 0):
B joins the queue; and on a queue of size 5 at level 0, where the comparison with the
level decides. -/
theorem seize_joins_queue_iff_witness :
    ((huge_request 0).enqueued = false ∧
      (0 : ℚ) ≥ (huge_request 0).early_start_time ∧
      overflow_second.value? ≠ some true ∧
      in_int_range overflow_first.world.resource.queue_mon.get_last_value ∧
      (overflow_second.self.enqueued = true ↔
        (overflow_first.world.resource.queue_size ≠ 0 ∧
          (overflow_first.world.resource.queue_size < 0 ∨
            (overflow_first.world.resource.queue_size : ℚ)
              > overflow_first.world.resource.queue_mon.get_last_value)))) ∧
    (unit_request 0).enqueued = false ∧
    busy_world.now ≥ (unit_request 0).early_start_time ∧
    second_seize.value? ≠ some true ∧
    in_int_range busy_world.resource.queue_mon.get_last_value ∧
    (second_seize.self.enqueued = true ↔
      (busy_world.resource.queue_size ≠ 0 ∧
        (busy_world.resource.queue_size < 0 ∨
          (busy_world.resource.queue_size : ℚ)
            > busy_world.resource.queue_mon.get_last_value))) ∧
    second_seize.self.enqueued = true ∧
    (second_seize.world.resource.queue_mon.get_last_value
        = busy_world.resource.queue_mon.get_last_value + (unit_request 0).resource_amount ∧
      second_seize.value? = some false ∧
      second_seize.world.resource.serve_mon = busy_world.resource.serve_mon ∧
      second_seize.self.end_time = (unit_request 0).end_time ∧
      second_seize.world.parent_entity.leave = busy_world.parent_entity.leave) :=
  have h1 : (unit_request 0).enqueued = false := by with_unfolding_all decide
  have h2 : busy_world.now ≥ (unit_request 0).early_start_time := by
    with_unfolding_all decide
  have h3 : second_seize.value? ≠ some true := by with_unfolding_all decide
  have h4 : second_seize.self.enqueued = true := by with_unfolding_all decide
  have h5 : in_int_range busy_world.resource.queue_mon.get_last_value := by
    with_unfolding_all decide
  have g1 : (huge_request 0).enqueued = false := by with_unfolding_all decide
  have g2 : (0 : ℚ) ≥ (huge_request 0).early_start_time := by with_unfolding_all decide
  have g3 : overflow_second.value? ≠ some true := by with_unfolding_all decide
  have g4 : in_int_range overflow_first.world.resource.queue_mon.get_last_value := by
    with_unfolding_all decide
  ⟨⟨g1, g2, g3, g4,
      (seize_joins_queue_iff (huge_request 0)
        ⟨overflow_first.world.resource, idle_entity, 0⟩ g1 g2 g3).1 g4⟩,
    h1, h2, h3, h5, (seize_joins_queue_iff (unit_request 0) busy_world h1 h2 h3).1 h5, h4,
    (seize_joins_queue_iff (unit_request 0) busy_world h1 h2 h3).2 h4⟩

/-- C5, as stated, fails beyond the range of `int`: with capacity 1 taken, `queue_size` 5
and a queue level of three thousand million, which has reached `queue_size`, a new
request that is not admitted is enqueued and its entity is not asked to leave: the level
does not fit `int queue_usage`, which holds `INT_MIN`. -/
theorem seize_enqueued_beyond_int_range :
    (unit_request 0).enqueued = false ∧
    overflow_world.now ≥ (unit_request 0).early_start_time ∧
    overflow_third.value? ≠ some true ∧
    (overflow_world.resource.queue_size > 0 ∧
      overflow_world.resource.queue_mon.get_last_value
        ≥ (overflow_world.resource.queue_size : ℚ)) ∧
    ¬ in_int_range overflow_world.resource.queue_mon.get_last_value ∧
    overflow_third.world.parent_entity.leave = false ∧
    overflow_third.self.enqueued = true ∧
    overflow_third.world.resource.queue_mon.records.length
      ≠ overflow_world.resource.queue_mon.records.length := by
  with_unfolding_all decide

/-- C5, amended: a request that is not enqueued, is called with `*now >=
early_start_time` and is not admitted, on a resource with `queue_size == 0`, or with a
positive `queue_size` that the queue level has reached while staying within the range of
`int`, makes the entity leave: afterwards the leave flag is true, `enqueued` is false, the
call has returned false, and neither monitor nor `end_time` has changed. -/
theorem seize_leaves_when_no_room (self : SeizeEvent) (w : World)
    (hfresh : self.enqueued = false)
    (hnow : w.now ≥ self.early_start_time)
    (hblocked : (self.try_to_start w).value? ≠ some true)
    (hfull : w.resource.queue_size = 0 ∨
      (w.resource.queue_size > 0 ∧
        w.resource.queue_mon.get_last_value ≥ (w.resource.queue_size : ℚ) ∧
        in_int_range w.resource.queue_mon.get_last_value)) :
    (self.try_to_start w).world.parent_entity.leave = true ∧
    (self.try_to_start w).self.enqueued = false ∧
    (self.try_to_start w).value? = some false ∧
    (self.try_to_start w).world.resource.serve_mon = w.resource.serve_mon ∧
    (self.try_to_start w).world.resource.queue_mon = w.resource.queue_mon ∧
    (self.try_to_start w).self.end_time = self.end_time := by
  have hq : ¬ (w.resource.queue_size ≠ 0 ∧ (w.resource.queue_size < 0 ∨
      w.resource.queue_size > double_to_int w.resource.queue_mon.get_last_value)) := by
    rintro ⟨h0, h1⟩
    rcases hfull with h | ⟨hpos, hlevel, hrange⟩
    · exact h0 h
    · rcases h1 with h1 | h1
      · omega
      · have := (double_to_int_lt_iff w.resource.queue_mon.get_last_value hpos hrange).mp h1
        linarith
  have hnow' : ¬ self.early_start_time > w.now := not_lt.mpr hnow
  unfold SeizeEvent.try_to_start at hblocked ⊢
  simp only at hblocked ⊢
  split_ifs at hblocked ⊢ <;> simp_all [Outcome.value?, Outcome.self, Outcome.world]

/-- C5, amended, on a queue of size 1 that holds a request for two units (the third
entity leaves), and on the scenario of the spec: capacity 2, `queue_size` 0, three seizes
of one unit at time 0. The first two are admitted; the third makes its entity leave. -/
theorem seize_leaves_when_no_room_witness :
    ((unit_request 0).enqueued = false ∧
      bounded_third_world.now ≥ (unit_request 0).early_start_time ∧
      ((unit_request 0).try_to_start bounded_third_world).value? ≠ some true ∧
      (bounded_third_world.resource.queue_size > 0 ∧
        bounded_third_world.resource.queue_mon.get_last_value
          ≥ (bounded_third_world.resource.queue_size : ℚ) ∧
        in_int_range bounded_third_world.resource.queue_mon.get_last_value) ∧
      ((unit_request 0).try_to_start bounded_third_world).world.parent_entity.leave
        = true ∧
      ((unit_request 0).try_to_start bounded_third_world).self.enqueued = false) ∧
    crowd_first.value? = some true ∧
    crowd_second.value? = some true ∧
    (unit_request 0).enqueued = false ∧
    crowd_third_world.now ≥ (unit_request 0).early_start_time ∧
    crowd_third.value? ≠ some true ∧
    crowd_third_world.resource.queue_size = 0 ∧
    (crowd_third.world.parent_entity.leave = true ∧
      crowd_third.self.enqueued = false ∧
      crowd_third.value? = some false ∧
      crowd_third.world.resource.serve_mon = crowd_third_world.resource.serve_mon ∧
      crowd_third.world.resource.queue_mon = crowd_third_world.resource.queue_mon ∧
      crowd_third.self.end_time = (unit_request 0).end_time) :=
  have h1 : (unit_request 0).enqueued = false := by with_unfolding_all decide
  have h2 : crowd_third_world.now ≥ (unit_request 0).early_start_time := by
    with_unfolding_all decide
  have h3 : crowd_third.value? ≠ some true := by with_unfolding_all decide
  have h4 : crowd_third_world.resource.queue_size = 0 := by with_unfolding_all decide
  have g2 : bounded_third_world.now ≥ (unit_request 0).early_start_time := by
    with_unfolding_all decide
  have g3 : ((unit_request 0).try_to_start bounded_third_world).value? ≠ some true := by
    with_unfolding_all decide
  have g4 : bounded_third_world.resource.queue_size > 0 ∧
      bounded_third_world.resource.queue_mon.get_last_value
        ≥ (bounded_third_world.resource.queue_size : ℚ) ∧
      in_int_range bounded_third_world.resource.queue_mon.get_last_value := by
    with_unfolding_all decide
  ⟨⟨h1, g2, g3, g4,
      (seize_leaves_when_no_room (unit_request 0) bounded_third_world h1 g2 g3
        (Or.inr g4)).1,
      (seize_leaves_when_no_room (unit_request 0) bounded_third_world h1 g2 g3
        (Or.inr g4)).2.1⟩,
    by with_unfolding_all decide, by with_unfolding_all decide, h1, h2, h3, h4,
    seize_leaves_when_no_room (unit_request 0) crowd_third_world h1 h2 h3 (Or.inl h4)⟩

/-- C6: `ReleaseEvent::try_to_start` throws exactly when `*now >= early_start_time` and
the server level minus the amount is negative; in that case it never returns false, and
the throw leaves the event and the world (both monitors, `last_release`, `end_time`,
`*now`) as they were. -/
theorem release_throws_iff (self : ReleaseEvent) (w : World) :
    ((w.now ≥ self.early_start_time ∧
        w.resource.serve_mon.get_last_value - self.resource_amount < 0) ↔
      self.try_to_start w
        = .threw "trying to release more resources than capacity" self w) ∧
    (¬ (w.now ≥ self.early_start_time ∧
        w.resource.serve_mon.get_last_value - self.resource_amount < 0) →
      (self.try_to_start w).what? = none) ∧
    ((w.now ≥ self.early_start_time ∧
        w.resource.serve_mon.get_last_value - self.resource_amount < 0) →
      (self.try_to_start w).value? ≠ some false) := by
  unfold ReleaseEvent.try_to_start
  simp only
  split_ifs with h1 h2
  · simp [Outcome.what?, Outcome.value?, not_le.mpr h1]
  · simp [Outcome.what?, Outcome.value?, not_lt.mpr h2]
  · simp [Outcome.what?, Outcome.value?, not_lt.mp h1, not_le.mp h2]

/-- C7: a release called with `*now >= early_start_time` on a server level that covers
the amount returns true, lowers the server level by exactly the amount (to a level that
is still nonnegative), sets `last_release` and `end_time` to `*now`, and leaves `*now`,
the queue monitor, `enqueued` and the entity's leave flag unchanged. -/
theorem release_start_effects (self : ReleaseEvent) (w : World)
    (hnow : w.now ≥ self.early_start_time)
    (hheld : w.resource.serve_mon.get_last_value - self.resource_amount ≥ 0) :
    (self.try_to_start w).value? = some true ∧
    (self.try_to_start w).world.resource.serve_mon.get_last_value
      = w.resource.serve_mon.get_last_value - self.resource_amount ∧
    (self.try_to_start w).world.resource.serve_mon.get_last_value ≥ 0 ∧
    (self.try_to_start w).world.resource.last_release = w.now ∧
    (self.try_to_start w).self.end_time = w.now ∧
    (self.try_to_start w).world.now = w.now ∧
    (self.try_to_start w).world.resource.queue_mon = w.resource.queue_mon ∧
    (self.try_to_start w).self.enqueued = self.enqueued ∧
    (self.try_to_start w).world.parent_entity.leave = w.parent_entity.leave := by
  have hnow' : ¬ self.early_start_time > w.now := not_lt.mpr hnow
  unfold ReleaseEvent.try_to_start
  simp [hnow', hheld, Outcome.value?, Outcome.self, Outcome.world]

/-- C7 at A's release (server level 1, amount 1, time 5). -/
theorem release_start_effects_witness :
    release_world.now ≥ (unit_release 5).early_start_time ∧
    release_world.resource.serve_mon.get_last_value - (unit_release 5).resource_amount ≥ 0 ∧
    (first_release.value? = some true ∧
      first_release.world.resource.serve_mon.get_last_value
        = release_world.resource.serve_mon.get_last_value
          - (unit_release 5).resource_amount ∧
      first_release.world.resource.serve_mon.get_last_value ≥ 0 ∧
      first_release.world.resource.last_release = release_world.now ∧
      first_release.self.end_time = release_world.now ∧
      first_release.world.now = release_world.now ∧
      first_release.world.resource.queue_mon = release_world.resource.queue_mon ∧
      first_release.self.enqueued = (unit_release 5).enqueued ∧
      first_release.world.parent_entity.leave = release_world.parent_entity.leave) :=
  have h1 : release_world.now ≥ (unit_release 5).early_start_time := by
    with_unfolding_all decide
  have h2 : release_world.resource.serve_mon.get_last_value
      - (unit_release 5).resource_amount ≥ 0 := by with_unfolding_all decide
  ⟨h1, h2, release_start_effects (unit_release 5) release_world h1 h2⟩

/-- C8: when a request that was enqueued is admitted: if `early_start_time <=
last_release` then `*now` and `end_time` are both set to `last_release`, otherwise `*now`
stays as passed in; either way `end_time >= last_release` and `end_time >=
early_start_time`, and `end_time` is exactly `last_release` when `early_start_time`
equals it. -/
theorem seize_from_queue_clamps (self : SeizeEvent) (w : World)
    (hwaiting : self.enqueued = true)
    (hstart : (self.try_to_start w).value? = some true) :
    (self.early_start_time ≤ w.resource.last_release →
      (self.try_to_start w).world.now = w.resource.last_release ∧
      (self.try_to_start w).self.end_time = w.resource.last_release) ∧
    (¬ self.early_start_time ≤ w.resource.last_release →
      (self.try_to_start w).world.now = w.now) ∧
    (self.try_to_start w).self.end_time ≥ w.resource.last_release ∧
    (self.try_to_start w).self.end_time ≥ self.early_start_time ∧
    (self.early_start_time = w.resource.last_release →
      (self.try_to_start w).self.end_time = w.resource.last_release) := by
  unfold SeizeEvent.try_to_start at hstart ⊢
  simp only at hstart ⊢
  split_ifs at hstart ⊢ <;> simp_all [Outcome.value?, Outcome.self, Outcome.world]
  rename_i hnow _ hlate
  refine ⟨by linarith, fun h => ?_⟩
  linarith

/-- C8 on the scenario of the spec: capacity 1, unbounded queue, A seizes at 0, B is
enqueued at 0, A releases at 5, B is retried at 5 with `early_start_time` 5 and ends
with `end_time` 5, queue level 0 and server level 1. -/
theorem seize_from_queue_clamps_witness :
    first_seize.value? = some true ∧
    (second_seize.value? = some false ∧ second_seize.self.enqueued = true) ∧
    (first_release.value? = some true ∧ first_release.world.resource.last_release = 5) ∧
    retry_event.enqueued = true ∧
    second_retry.value? = some true ∧
    retry_event.early_start_time = retry_world.resource.last_release ∧
    second_retry.self.end_time = retry_world.resource.last_release ∧
    second_retry.self.end_time = 5 ∧
    second_retry.world.resource.queue_mon.get_last_value = 0 ∧
    second_retry.world.resource.serve_mon.get_last_value = 1 :=
  have h1 : retry_event.enqueued = true := by with_unfolding_all decide
  have h2 : second_retry.value? = some true := by with_unfolding_all decide
  have h3 : retry_event.early_start_time = retry_world.resource.last_release := by
    with_unfolding_all decide
  ⟨by with_unfolding_all decide, by with_unfolding_all decide,
    by with_unfolding_all decide, h1, h2, h3,
    (seize_from_queue_clamps retry_event retry_world h1 h2).2.2.2.2 h3,
    by with_unfolding_all decide, by with_unfolding_all decide,
    by with_unfolding_all decide⟩

/-- C9, as stated, fails: with capacity 1 free again and B still waiting, a new request C
is put in the queue and the call returns false; the same call repeated at once, with
nothing changed in between, returns true and moves C from the queue to the server. -/
theorem seize_retry_admits_after_enqueue :
    latecomer_seize.value? = some false ∧
    latecomer_retry = latecomer_seize.self.try_to_start latecomer_seize.world ∧
    latecomer_retry.value? = some true ∧
    latecomer_retry.self.enqueued ≠ latecomer_seize.self.enqueued ∧
    latecomer_retry.self.end_time ≠ latecomer_seize.self.end_time ∧
    latecomer_retry.world.resource.serve_mon ≠ latecomer_seize.world.resource.serve_mon ∧
    latecomer_retry.world.resource.queue_mon ≠ latecomer_seize.world.resource.queue_mon := by
  with_unfolding_all decide

/-- C9, amended: if `try_to_start` returns false, the same call repeated with nothing
changed in between returns true exactly when the first call has just enqueued the event
(`enqueued` false before it, true after it) on a resource whose capacity test passes
(`capacity >= server_usage + amount`, on the `server_usage` the code reads); in every
other case it returns false again and leaves the event and the world (both monitors,
`enqueued`, `end_time`, the leave flag, `last_release`, `*now`) exactly as the first call
left them. It never throws. -/
theorem seize_retry_after_false (self : SeizeEvent) (w : World)
    (hfalse : (self.try_to_start w).value? = some false) :
    (((self.try_to_start w).self.try_to_start (self.try_to_start w).world).value?
        = some true ↔
      (self.enqueued = false ∧ (self.try_to_start w).self.enqueued = true ∧
        w.resource.capacity
          ≥ (double_to_int w.resource.serve_mon.get_last_value : ℚ)
            + self.resource_amount)) ∧
    (¬ (self.enqueued = false ∧ (self.try_to_start w).self.enqueued = true ∧
        w.resource.capacity
          ≥ (double_to_int w.resource.serve_mon.get_last_value : ℚ)
            + self.resource_amount) →
      (self.try_to_start w).self.try_to_start (self.try_to_start w).world
        = .returned false (self.try_to_start w).self (self.try_to_start w).world) := by
  have key : ∀ (o : Outcome SeizeEvent) (P : Prop),
      (P → o.value? = some true) →
      (¬ P → o = .returned false (self.try_to_start w).self (self.try_to_start w).world) →
      (o.value? = some true ↔ P) ∧
      (¬ P → o = .returned false (self.try_to_start w).self (self.try_to_start w).world) := by
    intro o P hyes hno
    refine ⟨⟨fun hv => ?_, hyes⟩, hno⟩
    by_contra hP
    rw [hno hP] at hv
    simp [Outcome.value?] at hv
  apply key
  · rintro ⟨henq, hjoined, hcap⟩
    have h1 : ¬ self.early_start_time > w.now := by
      intro h1
      rw [SeizeEvent.try_to_start_early self w h1] at hjoined
      simp [Outcome.self, henq] at hjoined
    have hadm : ¬ (w.resource.capacity
        ≥ (double_to_int w.resource.serve_mon.get_last_value : ℚ) + self.resource_amount ∧
        double_to_int w.resource.queue_mon.get_last_value = 0) := by
      intro hadm
      rw [SeizeEvent.try_to_start_admitted self w h1 hadm.1 (Or.inr hadm.2)] at hfalse
      simp at hfalse
    have hroom : w.resource.queue_size ≠ 0 ∧ (w.resource.queue_size < 0 ∨
        w.resource.queue_size > double_to_int w.resource.queue_mon.get_last_value) := by
      by_contra hroom
      rw [SeizeEvent.try_to_start_leave self w h1 hadm henq hroom] at hjoined
      simp [Outcome.self, henq] at hjoined
    rw [SeizeEvent.try_to_start_join self w h1 hadm henq hroom]
    exact SeizeEvent.try_to_start_admitted _ _ h1 hcap (Or.inl rfl)
  · intro hP
    by_cases h1 : self.early_start_time > w.now
    · have e1 := SeizeEvent.try_to_start_early self w h1
      rw [e1]
      exact e1
    by_cases henq : self.enqueued = true
    · by_cases hcap : w.resource.capacity
          ≥ (double_to_int w.resource.serve_mon.get_last_value : ℚ) + self.resource_amount
      · rw [SeizeEvent.try_to_start_admitted self w h1 hcap (Or.inl henq)] at hfalse
        simp at hfalse
      · have e1 := SeizeEvent.try_to_start_waiting self w h1 hcap henq
        rw [e1]
        exact e1
    have henq' : self.enqueued = false := by simpa using henq
    by_cases hadm : w.resource.capacity
        ≥ (double_to_int w.resource.serve_mon.get_last_value : ℚ) + self.resource_amount ∧
        double_to_int w.resource.queue_mon.get_last_value = 0
    · rw [SeizeEvent.try_to_start_admitted self w h1 hadm.1 (Or.inr hadm.2)] at hfalse
      simp at hfalse
    by_cases hroom : w.resource.queue_size ≠ 0 ∧ (w.resource.queue_size < 0 ∨
        w.resource.queue_size > double_to_int w.resource.queue_mon.get_last_value)
    · have e1 := SeizeEvent.try_to_start_join self w h1 hadm henq' hroom
      have hcap : ¬ w.resource.capacity
          ≥ (double_to_int w.resource.serve_mon.get_last_value : ℚ)
            + self.resource_amount := by
        intro hcap
        apply hP
        refine ⟨henq', ?_, hcap⟩
        rw [e1]
        rfl
      rw [e1]
      exact SeizeEvent.try_to_start_waiting _ _ h1 hcap rfl
    · have e2 := SeizeEvent.try_to_start_leave self
        { w with parent_entity := { w.parent_entity with leave := true } } h1 hadm henq'
        hroom
      rw [SeizeEvent.try_to_start_leave self w h1 hadm henq' hroom]
      exact e2

/-- C9, amended, at B's arrival (capacity 1 taken by A): B is enqueued by the first call,
the capacity test fails, and the repeated call returns false and changes nothing; and at
C's arrival (capacity free, B waiting): C is enqueued by the first call, the capacity
test passes, and the repeated call returns true. -/
theorem seize_retry_after_false_witness :
    (latecomer_seize.value? = some false ∧
      ((unit_request 5).enqueued = false ∧ latecomer_seize.self.enqueued = true ∧
        latecomer_world.resource.capacity
          ≥ (double_to_int latecomer_world.resource.serve_mon.get_last_value : ℚ)
            + (unit_request 5).resource_amount) ∧
      (latecomer_seize.self.try_to_start latecomer_seize.world).value? = some true) ∧
    second_seize.value? = some false ∧
    ¬ ((unit_request 0).enqueued = false ∧ second_seize.self.enqueued = true ∧
        busy_world.resource.capacity
          ≥ (double_to_int busy_world.resource.serve_mon.get_last_value : ℚ)
            + (unit_request 0).resource_amount) ∧
    second_seize.self.try_to_start second_seize.world
      = .returned false second_seize.self second_seize.world :=
  have h : second_seize.value? = some false := by with_unfolding_all decide
  have hno : ¬ ((unit_request 0).enqueued = false ∧ second_seize.self.enqueued = true ∧
      busy_world.resource.capacity
        ≥ (double_to_int busy_world.resource.serve_mon.get_last_value : ℚ)
          + (unit_request 0).resource_amount) := by with_unfolding_all decide
  have g : latecomer_seize.value? = some false := by with_unfolding_all decide
  have hyes : (unit_request 5).enqueued = false ∧ latecomer_seize.self.enqueued = true ∧
      latecomer_world.resource.capacity
        ≥ (double_to_int latecomer_world.resource.serve_mon.get_last_value : ℚ)
          + (unit_request 5).resource_amount := by with_unfolding_all decide
  ⟨⟨g, hyes, (seize_retry_after_false (unit_request 5) latecomer_world g).1.mpr hyes⟩,
    h, hno, (seize_retry_after_false (unit_request 0) busy_world h).2 hno⟩

/-- C10: a seize, a release or a timeout called with `*now < early_start_time` returns
false and leaves the event and the world exactly as they were (no monitor record, no
change to `enqueued`, `end_time`, the leave flag, `last_release` or `*now`); in
particular the release does not throw, whatever its amount. -/
theorem not_yet_eligible_is_refused :
    (∀ (e : SeizeEvent) (w : World), w.now < e.early_start_time →
      e.try_to_start w = .returned false e w) ∧
    (∀ (e : ReleaseEvent) (w : World), w.now < e.early_start_time →
      e.try_to_start w = .returned false e w) ∧
    (∀ (e : TimeoutEvent) (w : World), w.now < e.early_start_time →
      e.try_to_start w = .returned false e w) := by
  refine ⟨fun e w h => ?_, fun e w h => ?_, fun e w h => ?_⟩
  · unfold SeizeEvent.try_to_start
    simp [h]
  · unfold ReleaseEvent.try_to_start
    simp [h]
  · unfold TimeoutEvent.try_to_start
    simp [h]

/-- C10 at time 0 for events scheduled for time 5, on an idle resource: the release of
one unit does not throw although the server level is 0. -/
theorem not_yet_eligible_is_refused_witness :
    idle_world.now < (unit_request 5).early_start_time ∧
    idle_world.now < (unit_release 5).early_start_time ∧
    idle_world.now < (short_timeout 5).early_start_time ∧
    idle_world.resource.serve_mon.get_last_value - (unit_release 5).resource_amount < 0 ∧
    (unit_request 5).try_to_start idle_world
      = .returned false (unit_request 5) idle_world ∧
    (unit_release 5).try_to_start idle_world
      = .returned false (unit_release 5) idle_world ∧
    (short_timeout 5).try_to_start idle_world
      = .returned false (short_timeout 5) idle_world :=
  have h1 : idle_world.now < (unit_request 5).early_start_time := by
    with_unfolding_all decide
  have h2 : idle_world.now < (unit_release 5).early_start_time := by
    with_unfolding_all decide
  have h3 : idle_world.now < (short_timeout 5).early_start_time := by
    with_unfolding_all decide
  ⟨h1, h2, h3, by with_unfolding_all decide,
    not_yet_eligible_is_refused.1 (unit_request 5) idle_world h1,
    not_yet_eligible_is_refused.2.1 (unit_release 5) idle_world h2,
    not_yet_eligible_is_refused.2.2 (short_timeout 5) idle_world h3⟩

/-! ## Lemmas on runs of refused attempts -/

/-- A run of refused attempts keeps any quantity that neither the scheduler nor a refused
attempt changes. -/
theorem refused_run_keeps {ε α : Type} (step : ε → World → Outcome ε)
    (schedule : ε → ℚ → ε) (f : ε → α)
    (hsched : ∀ e t, f (schedule e t) = f e)
    (hstep : ∀ e w, (step e w).value? ≠ some true → f (step e w).self = f e) :
    ∀ (calls : List (ℚ × World)) (e e' : ε),
      refused_run step schedule e calls = some e' → f e' = f e := by
  intro calls
  induction calls with
  | nil =>
    intro e e' h
    simp only [refused_run, Option.some.injEq] at h
    rw [h]
  | cons c rest ih =>
    intro e e' h
    obtain ⟨t, w⟩ := c
    simp only [refused_run] at h
    split_ifs at h with hv
    rw [ih _ _ h, hstep _ _ hv, hsched]

/-- A seize that does not return true leaves `end_time` alone. -/
theorem SeizeEvent.end_time_of_refused_seize (e : SeizeEvent) (w : World)
    (h : (e.try_to_start w).value? ≠ some true) :
    (e.try_to_start w).self.end_time = e.end_time := by
  unfold SeizeEvent.try_to_start at h ⊢
  simp only at h ⊢
  split_ifs at h ⊢ <;> simp_all [Outcome.value?, Outcome.self]

/-- A release that does not return true leaves `end_time` alone. -/
theorem ReleaseEvent.end_time_of_refused_release (e : ReleaseEvent) (w : World)
    (h : (e.try_to_start w).value? ≠ some true) :
    (e.try_to_start w).self.end_time = e.end_time := by
  unfold ReleaseEvent.try_to_start at h ⊢
  simp only at h ⊢
  split_ifs at h ⊢ <;> simp_all [Outcome.value?, Outcome.self]

/-- A timeout that does not return true leaves `end_time` alone. -/
theorem TimeoutEvent.end_time_of_refused_timeout (e : TimeoutEvent) (w : World)
    (h : (e.try_to_start w).value? ≠ some true) :
    (e.try_to_start w).self.end_time = e.end_time := by
  unfold TimeoutEvent.try_to_start at h ⊢
  split_ifs at h ⊢ <;> simp_all [Outcome.value?, Outcome.self]

/-- A skip always returns true. -/
theorem SkipEvent.end_time_of_refused_skip (e : SkipEvent) (w : World)
    (h : (e.try_to_start w).value? ≠ some true) :
    (e.try_to_start w).self.end_time = e.end_time := by
  exact absurd rfl h

/-! ## Claims, continued -/

/-- C11: for each of the four event kinds, a freshly constructed event has `end_time ==
-1` and `enqueued == false`; a `try_to_start` call that does not return true (it returns
false or, for a release, throws) leaves `end_time` unchanged; so after any run of
attempts on a fresh event none of which returns true, `end_time` is still -1. -/
theorem end_time_unset_until_started :
    ((∀ raw n, (SkipEvent.new raw n).end_time = -1 ∧ (SkipEvent.new raw n).enqueued = false) ∧
      (∀ raw res a, (SeizeEvent.new raw res a).end_time = -1 ∧
        (SeizeEvent.new raw res a).enqueued = false) ∧
      (∀ raw res a, (ReleaseEvent.new raw res a).end_time = -1 ∧
        (ReleaseEvent.new raw res a).enqueued = false) ∧
      (∀ raw d, (TimeoutEvent.new raw d).end_time = -1 ∧
        (TimeoutEvent.new raw d).enqueued = false)) ∧
    ((∀ (e : SkipEvent) (w : World), (e.try_to_start w).value? ≠ some true →
        (e.try_to_start w).self.end_time = e.end_time) ∧
      (∀ (e : SeizeEvent) (w : World), (e.try_to_start w).value? ≠ some true →
        (e.try_to_start w).self.end_time = e.end_time) ∧
      (∀ (e : ReleaseEvent) (w : World), (e.try_to_start w).value? ≠ some true →
        (e.try_to_start w).self.end_time = e.end_time) ∧
      (∀ (e : TimeoutEvent) (w : World), (e.try_to_start w).value? ≠ some true →
        (e.try_to_start w).self.end_time = e.end_time)) ∧
    ((∀ raw n calls e', refused_run SkipEvent.try_to_start SkipEvent.schedule
          (SkipEvent.new raw n) calls = some e' → e'.end_time = -1) ∧
      (∀ raw res a calls e', refused_run SeizeEvent.try_to_start SeizeEvent.schedule
          (SeizeEvent.new raw res a) calls = some e' → e'.end_time = -1) ∧
      (∀ raw res a calls e', refused_run ReleaseEvent.try_to_start ReleaseEvent.schedule
          (ReleaseEvent.new raw res a) calls = some e' → e'.end_time = -1) ∧
      (∀ raw d calls e', refused_run TimeoutEvent.try_to_start TimeoutEvent.schedule
          (TimeoutEvent.new raw d) calls = some e' → e'.end_time = -1)) := by
  refine ⟨⟨fun _ _ => ⟨rfl, rfl⟩, fun _ _ _ => ⟨rfl, rfl⟩, fun _ _ _ => ⟨rfl, rfl⟩,
      fun _ _ => ⟨rfl, rfl⟩⟩,
    ⟨SkipEvent.end_time_of_refused_skip, SeizeEvent.end_time_of_refused_seize,
      ReleaseEvent.end_time_of_refused_release, TimeoutEvent.end_time_of_refused_timeout⟩,
    ?_, ?_, ?_, ?_⟩
  · intro raw n calls e' h
    exact refused_run_keeps SkipEvent.try_to_start SkipEvent.schedule (·.end_time)
      (fun _ _ => rfl) SkipEvent.end_time_of_refused_skip calls _ e' h
  · intro raw res a calls e' h
    exact refused_run_keeps SeizeEvent.try_to_start SeizeEvent.schedule (·.end_time)
      (fun _ _ => rfl) SeizeEvent.end_time_of_refused_seize calls _ e' h
  · intro raw res a calls e' h
    exact refused_run_keeps ReleaseEvent.try_to_start ReleaseEvent.schedule (·.end_time)
      (fun _ _ => rfl) ReleaseEvent.end_time_of_refused_release calls _ e' h
  · intro raw d calls e' h
    exact refused_run_keeps TimeoutEvent.try_to_start TimeoutEvent.schedule (·.end_time)
      (fun _ _ => rfl) TimeoutEvent.end_time_of_refused_timeout calls _ e' h

/-- C11 on B's request: constructed, refused at time 0 (enqueued), refused again at time 1
while A still holds the unit; its `end_time` is still -1. -/
theorem end_time_unset_until_started_witness :
    refused_run SeizeEvent.try_to_start SeizeEvent.schedule
        (SeizeEvent.new raw_event "server" 1) [(0, busy_world), (1, early_retry_world)]
      = some early_retry_event ∧
    early_retry_event.enqueued = true ∧
    early_retry_event.end_time = -1 :=
  have h : refused_run SeizeEvent.try_to_start SeizeEvent.schedule
      (SeizeEvent.new raw_event "server" 1) [(0, busy_world), (1, early_retry_world)]
      = some early_retry_event := by with_unfolding_all decide
  ⟨h, by with_unfolding_all decide,
    end_time_unset_until_started.2.2.2.1 raw_event "server" 1 _ _ h⟩

/-- Popping `k` times leaves the pending queue without its first `k` events. -/
theorem Entity.iterate_get_event (k : Nat) (ent : Entity) :
    (fun (e : Entity) => e.get_event.2)^[k] ent
      = { ent with events := ent.events.drop k } := by
  induction k generalizing ent with
  | zero => simp
  | succ k ih =>
    rw [Function.iterate_succ_apply, ih]
    cases h : ent.events with
    | nil => simp [Entity.get_event, h]
    | cons a rest => simp [Entity.get_event, h]

/-- C12: a skip returns true for every `*now` and every `early_start_time`, sets
`end_time = *now`, and touches nothing but the pending queue; with `n_events = k >= 0` on
a queue of at least `k` events it leaves the queue without its first `k` events, the rest
in their original order; with `n_events <= 0` it leaves the queue unchanged. -/
theorem skip_drops_first_events (self : SkipEvent) (w : World) :
    ((self.try_to_start w).value? = some true ∧
      (self.try_to_start w).self = { self with end_time := w.now } ∧
      (self.try_to_start w).world.now = w.now ∧
      (self.try_to_start w).world.resource = w.resource ∧
      (self.try_to_start w).world.parent_entity.leave = w.parent_entity.leave ∧
      (self.try_to_start w).world.parent_entity.monitor = w.parent_entity.monitor) ∧
    (∀ t, ((self.schedule t).try_to_start w).value? = some true ∧
      ((self.schedule t).try_to_start w).self.end_time = w.now ∧
      ((self.schedule t).try_to_start w).world = (self.try_to_start w).world) ∧
    (∀ k : Nat, self.n_events = k → k ≤ w.parent_entity.events.length →
      (self.try_to_start w).world.parent_entity.events = w.parent_entity.events.drop k ∧
      w.parent_entity.events
        = w.parent_entity.events.take k
          ++ (self.try_to_start w).world.parent_entity.events ∧
      (self.try_to_start w).world.parent_entity.events.length
        = w.parent_entity.events.length - k) ∧
    (self.n_events ≤ 0 →
      (self.try_to_start w).world.parent_entity.events = w.parent_entity.events) := by
  refine ⟨?_, ?_, ?_, ?_⟩
  · simp [SkipEvent.try_to_start, Outcome.value?, Outcome.self, Outcome.world,
      Entity.iterate_get_event]
  · intro t
    simp [SkipEvent.try_to_start, SkipEvent.schedule, Outcome.value?, Outcome.self,
      Outcome.world]
  · intro k hk _
    have h : (self.try_to_start w).world.parent_entity.events
        = w.parent_entity.events.drop k := by
      simp [SkipEvent.try_to_start, Outcome.world, Entity.iterate_get_event, hk]
    rw [h]
    exact ⟨rfl, (List.take_append_drop k _).symm, List.length_drop k _⟩
  · intro hn
    have h0 : self.n_events.toNat = 0 := Int.toNat_eq_zero.mpr hn
    simp [SkipEvent.try_to_start, Outcome.world, h0]

/-- C12 on an entity with three pending events (a timeout, a seize, a release): a skip of
two, scheduled for time 9 and called at time 4, returns true, gets `end_time` 4 and
leaves the release alone in the queue. -/
theorem skip_drops_first_events_witness :
    skip_two.n_events = (2 : Nat) ∧
    2 ≤ three_pending.events.length ∧
    skip_two.early_start_time = 9 ∧
    (skip_two.try_to_start ⟨idle_resource 1 0, three_pending, 4⟩).value? = some true ∧
    (skip_two.try_to_start ⟨idle_resource 1 0, three_pending, 4⟩).self.end_time = 4 ∧
    (skip_two.try_to_start ⟨idle_resource 1 0, three_pending, 4⟩).world.parent_entity.events
      = [.release (unit_release 0)] :=
  have h1 : skip_two.n_events = (2 : Nat) := by with_unfolding_all decide
  have h2 : 2 ≤ three_pending.events.length := by with_unfolding_all decide
  ⟨h1, h2, by with_unfolding_all decide,
    (skip_drops_first_events skip_two ⟨idle_resource 1 0, three_pending, 4⟩).1.1,
    by with_unfolding_all decide,
    ((skip_drops_first_events skip_two ⟨idle_resource 1 0, three_pending, 4⟩).2.2.1
      2 h1 h2).1⟩

/-- C13: a timeout called with `*now >= early_start_time` returns true, records level 1
on the owning entity's monitor at `*now`, leaves `*now` unchanged and sets `end_time =
*now + duration`, which is at least `*now` when the duration is nonnegative; `stop`
returns true, records level 0 on that monitor at the time passed to `stop`, and leaves
`end_time` (and the rest of the event) unchanged. -/
theorem timeout_start_and_stop (self : TimeoutEvent) (w : World) :
    (w.now ≥ self.early_start_time →
      (self.try_to_start w).value? = some true ∧
      (self.try_to_start w).world.parent_entity.monitor
        = w.parent_entity.monitor.record w.now 1 ∧
      (self.try_to_start w).world.parent_entity.monitor.records
        = w.parent_entity.monitor.records ++ [(w.now, 1)] ∧
      (self.try_to_start w).world.parent_entity.monitor.get_last_value = 1 ∧
      (self.try_to_start w).world.now = w.now ∧
      (self.try_to_start w).self.end_time = w.now + self.duration ∧
      (self.duration ≥ 0 → (self.try_to_start w).self.end_time ≥ w.now)) ∧
    ((self.stop w).value? = some true ∧
      (self.stop w).world.parent_entity.monitor = w.parent_entity.monitor.record w.now 0 ∧
      (self.stop w).world.parent_entity.monitor.records
        = w.parent_entity.monitor.records ++ [(w.now, 0)] ∧
      (self.stop w).world.parent_entity.monitor.get_last_value = 0 ∧
      (self.stop w).self.end_time = self.end_time ∧
      (self.stop w).self = self) := by
  constructor
  · intro hnow
    have hnow' : ¬ self.early_start_time > w.now := not_lt.mpr hnow
    simp [TimeoutEvent.try_to_start, hnow', Outcome.value?, Outcome.self, Outcome.world,
      Monitor.record, Monitor.get_last_value]
  · simp [TimeoutEvent.stop, Outcome.value?, Outcome.self, Outcome.world, Monitor.record,
      Monitor.get_last_value]

/-- C13 on a timeout of 3 scheduled for time 0 and started at time 0: `end_time` is 3. -/
theorem timeout_start_and_stop_witness :
    idle_world.now ≥ (short_timeout 0).early_start_time ∧
    ((short_timeout 0).try_to_start idle_world).value? = some true ∧
    ((short_timeout 0).try_to_start idle_world).world.parent_entity.monitor.records
      = [(0, 1)] ∧
    ((short_timeout 0).try_to_start idle_world).self.end_time = 3 :=
  have h : idle_world.now ≥ (short_timeout 0).early_start_time := by
    with_unfolding_all decide
  ⟨h, ((timeout_start_and_stop (short_timeout 0) idle_world).1 h).1,
    by with_unfolding_all decide, by with_unfolding_all decide⟩

/-- C14, as stated, fails: an over-drawn release of "doctor" by one entity and an
over-drawn release of "nurse" by another entity both throw, and the two errors carry the
same message. -/
theorem release_errors_indistinguishable :
    (named_release "doctor").resource_name ≠ (named_release "nurse").resource_name ∧
    (named_resource "doctor").name ≠ (named_resource "nurse").name ∧
    idle_entity ≠ three_pending ∧
    doctor_release.value? = none ∧
    nurse_release.value? = none ∧
    doctor_release.what? = nurse_release.what? := by
  with_unfolding_all decide

/-- C14, amended: when `ReleaseEvent::try_to_start` fails fatally, the error it raises
carries the fixed message "trying to release more resources than capacity", whatever the
resource and the entity; so any two over-drawn releases raise the same error. -/
theorem release_error_message_fixed (self other : ReleaseEvent) (w v : World)
    (hself : (self.try_to_start w).value? = none)
    (hother : (other.try_to_start v).value? = none) :
    (self.try_to_start w).what? = some "trying to release more resources than capacity" ∧
    (self.try_to_start w).what? = (other.try_to_start v).what? := by
  have key : ∀ (e : ReleaseEvent) (u : World), (e.try_to_start u).value? = none →
      (e.try_to_start u).what?
        = some "trying to release more resources than capacity" := by
    intro e u h
    unfold ReleaseEvent.try_to_start at h ⊢
    simp only at h ⊢
    split_ifs at h ⊢ <;> simp_all [Outcome.value?, Outcome.what?]
  rw [key self w hself, key other v hother]
  exact ⟨rfl, rfl⟩

/-- C14, amended, on the over-drawn releases of "doctor" and of "nurse". -/
theorem release_error_message_fixed_witness :
    doctor_release.value? = none ∧
    nurse_release.value? = none ∧
    doctor_release.what? = some "trying to release more resources than capacity" ∧
    doctor_release.what? = nurse_release.what? :=
  have h1 : doctor_release.value? = none := by with_unfolding_all decide
  have h2 : nurse_release.value? = none := by with_unfolding_all decide
  ⟨h1, h2, release_error_message_fixed (named_release "doctor") (named_release "nurse")
    ⟨named_resource "doctor", idle_entity, 0⟩ ⟨named_resource "nurse", three_pending, 0⟩
    h1 h2⟩

/-- C15: an enqueued request is admitted on the code although its admission test on the
recorded server level fails. B waits for one unit of a resource of capacity 1 on which D
holds half a unit: `capacity < server level + amount` (1 < 1/2 + 1), yet the retry returns
true, B leaves the queue and the server level becomes 3/2, because the capacity test
reads the level 1/2 as the `int` 0. -/
theorem seize_waiting_admitted_on_truncated_level :
    late_half.self.enqueued = true ∧
    late_half_retry.value? = some true ∧
    retry_event.enqueued = true ∧
    overdue_world.now ≥ retry_event.early_start_time ∧
    overdue_world.resource.serve_mon.get_last_value = 1/2 ∧
    overdue_world.resource.capacity
      < overdue_world.resource.serve_mon.get_last_value + retry_event.resource_amount ∧
    overdue_retry.value? = some true ∧
    overdue_retry.self.enqueued = false ∧
    overdue_retry.self.end_time ≠ retry_event.end_time ∧
    overdue_retry.world.resource.serve_mon.get_last_value = 3/2 ∧
    overdue_retry.world.resource.serve_mon ≠ overdue_world.resource.serve_mon ∧
    overdue_retry.world.resource.queue_mon ≠ overdue_world.resource.queue_mon := by
  with_unfolding_all decide

/-- An already-enqueued request called with `*now >= early_start_time` for which the test
the code evaluates fails (`capacity < server_usage + amount`, on the `int server_usage`
of event.h:94) gets false, stays enqueued, and nothing else changes. -/
theorem seize_waiting_stays_waiting (self : SeizeEvent) (w : World)
    (hwaiting : self.enqueued = true)
    (hnow : w.now ≥ self.early_start_time)
    (hfull : w.resource.capacity
      < (double_to_int w.resource.serve_mon.get_last_value : ℚ) + self.resource_amount) :
    self.try_to_start w = .returned false self w ∧
    (self.try_to_start w).self.enqueued = true ∧
    (self.try_to_start w).world.resource.serve_mon.records
      = w.resource.serve_mon.records ∧
    (self.try_to_start w).world.resource.queue_mon.records
      = w.resource.queue_mon.records := by
  have h := SeizeEvent.try_to_start_waiting self w (not_lt.mpr hnow) (not_le.mpr hfull)
    hwaiting
  rw [h]
  exact ⟨rfl, hwaiting, rfl, rfl⟩

/-- C17: the queue bound is exceeded on the code. On a resource of capacity 2 with
`queue_size` 1, both units taken and nobody waiting (queue level 0, within the bound), a
request for two units is put in the queue, because the test `queue_size > queue_usage`
does not look at the amount, and the queue level becomes 2, above `queue_size`. -/
theorem queue_bound_exceeded_by_amount :
    bounded_first.value? = some true ∧
    bounded_world.resource.queue_size = 1 ∧
    bounded_world.resource.queue_mon.get_last_value = 0 ∧
    bounded_world.resource.queue_mon.get_last_value
      ≤ (bounded_world.resource.queue_size : ℚ) ∧
    (pair_request 0).resource_amount ≥ 0 ∧
    bounded_second.value? = some false ∧
    bounded_second.self.enqueued = true ∧
    bounded_second.world.resource.queue_size = 1 ∧
    bounded_second.world.resource.queue_mon.get_last_value = 2 ∧
    ¬ (bounded_second.world.resource.queue_mon.get_last_value
        ≤ (bounded_second.world.resource.queue_size : ℚ)) := by
  with_unfolding_all decide

/-- C18, as stated, fails beyond the range of `int`: on a resource of capacity three
thousand million whose server level is the whole number three thousand million (within
the capacity), the test on the `int`-converted level passes for one more unit although
`capacity >= s + amount` is false, and the call leaves the server level above the
capacity. -/
theorem seize_oversells_beyond_int_range :
    vast_first.value? = some true ∧
    vast_world.resource.serve_mon.get_last_value = ((3000000000 : Int) : ℚ) ∧
    (0 : Int) ≤ 3000000000 ∧
    ((3000000000 : Int) : ℚ) ≤ vast_world.resource.capacity ∧
    (unit_request 0).resource_amount ≥ 0 ∧
    ¬ ((3000000000 : Int) ≤ INT_MAX) ∧
    ¬ (vast_world.resource.capacity
          ≥ (double_to_int vast_world.resource.serve_mon.get_last_value : ℚ)
            + (unit_request 0).resource_amount ↔
        vast_world.resource.capacity
          ≥ vast_world.resource.serve_mon.get_last_value
            + (unit_request 0).resource_amount) ∧
    vast_second.value? = some true ∧
    vast_second.world.resource.serve_mon.get_last_value = 3000000001 ∧
    ¬ (vast_second.world.resource.serve_mon.get_last_value
        ≤ vast_second.world.resource.capacity) := by
  refine ⟨by with_unfolding_all decide,
    le_antisymm (by with_unfolding_all decide) (by with_unfolding_all decide),
    by with_unfolding_all decide, by with_unfolding_all decide,
    by with_unfolding_all decide, by with_unfolding_all decide,
    by with_unfolding_all decide, by with_unfolding_all decide,
    le_antisymm (by with_unfolding_all decide) (by with_unfolding_all decide), ?_⟩
  with_unfolding_all decide

/-- C18, amended: when the server level is a whole number `s` with `0 <= s <= capacity`
that fits an `int` (`s <= INT_MAX`) and the amount is nonnegative, the capacity test on
the `int`-converted level is the capacity test on the level itself, and after a
`SeizeEvent::try_to_start` call the server level is still at most the capacity. -/
theorem seize_keeps_capacity_on_whole_levels (self : SeizeEvent) (w : World) (s : Int)
    (hwhole : w.resource.serve_mon.get_last_value = (s : ℚ))
    (hnonneg : 0 ≤ s)
    (hfits : s ≤ INT_MAX)
    (hwithin : (s : ℚ) ≤ w.resource.capacity)
    (_hamount : self.resource_amount ≥ 0) :
    (w.resource.capacity
        ≥ (double_to_int w.resource.serve_mon.get_last_value : ℚ) + self.resource_amount ↔
      w.resource.capacity ≥ w.resource.serve_mon.get_last_value + self.resource_amount) ∧
    (self.try_to_start w).world.resource.capacity = w.resource.capacity ∧
    (self.try_to_start w).world.resource.serve_mon.get_last_value
      ≤ (self.try_to_start w).world.resource.capacity := by
  have hconv : (double_to_int w.resource.serve_mon.get_last_value : ℚ)
      = w.resource.serve_mon.get_last_value := by
    rw [hwhole, double_to_int_intCast s (by unfold INT_MIN; omega) hfits]
  have hbefore : w.resource.serve_mon.get_last_value ≤ w.resource.capacity := by
    rw [hwhole]; exact hwithin
  refine ⟨by rw [hconv], ?_⟩
  unfold SeizeEvent.try_to_start
  simp only
  rw [hconv]
  split_ifs <;> simp_all [Outcome.world]

/-- C18, amended, on B's arrival: server level 1 (whole), capacity 1, one unit asked. -/
theorem seize_keeps_capacity_on_whole_levels_witness :
    busy_world.resource.serve_mon.get_last_value = ((1 : Int) : ℚ) ∧
    (0 : Int) ≤ 1 ∧
    (1 : Int) ≤ INT_MAX ∧
    ((1 : Int) : ℚ) ≤ busy_world.resource.capacity ∧
    (unit_request 0).resource_amount ≥ 0 ∧
    second_seize.world.resource.serve_mon.get_last_value
      ≤ second_seize.world.resource.capacity :=
  have h1 : busy_world.resource.serve_mon.get_last_value = ((1 : Int) : ℚ) := by
    with_unfolding_all decide
  have h2 : (0 : Int) ≤ 1 := by decide
  have h2' : (1 : Int) ≤ INT_MAX := by decide
  have h3 : ((1 : Int) : ℚ) ≤ busy_world.resource.capacity := by with_unfolding_all decide
  have h4 : (unit_request 0).resource_amount ≥ 0 := by with_unfolding_all decide
  ⟨h1, h2, h2', h3, h4,
    (seize_keeps_capacity_on_whole_levels (unit_request 0) busy_world 1 h1 h2 h2' h3
      h4).2.2⟩

/-- The queue admission test is what decides whether a new request that is eligible and
not admitted gets enqueued. -/
theorem SeizeEvent.enqueued_eq_queue_admission_test (self : SeizeEvent) (w : World)
    (hfresh : self.enqueued = false)
    (hnow : w.now ≥ self.early_start_time)
    (hblocked : (self.try_to_start w).value? ≠ some true) :
    (self.try_to_start w).self.enqueued
      = queue_admission_test w.resource.queue_size w.resource.queue_mon.get_last_value := by
  have hnow' : ¬ self.early_start_time > w.now := not_lt.mpr hnow
  unfold SeizeEvent.try_to_start at hblocked ⊢
  unfold queue_admission_test
  simp only at hblocked ⊢
  split_ifs at hblocked ⊢ <;> simp_all [Outcome.value?, Outcome.self]

/-- C20: for every integer `queue_size` and every queue level `q` within the range of
`int`, the test the code evaluates on the `int`-converted level, `queue_size != 0 &&
(queue_size < 0 || queue_size > (int)q)`, has the same truth value as the test on the
level itself, `queue_size != 0 && (queue_size < 0 || queue_size > q)`. -/
theorem queue_admission_test_eq_spec (queue_size : Int) (q : ℚ) (hq : in_int_range q) :
    queue_admission_test queue_size q = queue_admission_spec queue_size q := by
  unfold queue_admission_test queue_admission_spec
  rcases lt_trichotomy queue_size 0 with h | h | h
  · simp [h, h.ne]
  · simp [h]
  · have := double_to_int_lt_iff q h hq
    simp only [gt_iff_lt, this]

/-- C20 at `queue_size` 2 and the levels 3/2 (converted to 1: room) and 5/2 (converted to
2: no room), and at a negative level: the two tests agree. -/
theorem queue_admission_test_eq_spec_witness :
    (in_int_range (3/2) ∧ queue_admission_test 2 (3/2) = true ∧
      queue_admission_test 2 (3/2) = queue_admission_spec 2 (3/2)) ∧
    (in_int_range (5/2) ∧ queue_admission_test 2 (5/2) = false ∧
      queue_admission_test 2 (5/2) = queue_admission_spec 2 (5/2)) ∧
    (in_int_range (-1/2) ∧
      queue_admission_test 2 (-1/2) = queue_admission_spec 2 (-1/2)) :=
  have h1 : in_int_range (3/2) := by with_unfolding_all decide
  have h2 : in_int_range (5/2) := by with_unfolding_all decide
  have h3 : in_int_range (-1/2) := by with_unfolding_all decide
  ⟨⟨h1, by with_unfolding_all decide, queue_admission_test_eq_spec 2 (3/2) h1⟩,
    ⟨h2, by with_unfolding_all decide, queue_admission_test_eq_spec 2 (5/2) h2⟩,
    ⟨h3, queue_admission_test_eq_spec 2 (-1/2) h3⟩⟩

/-! ## Lemmas on rounding to the nearest double -/

/-- The function `pow2` is the power of two. -/
theorem pow2_eq_zpow (e : Int) : pow2 e = (2 : ℚ) ^ e := by
  unfold pow2
  split_ifs with h
  · obtain ⟨n, rfl⟩ := Int.eq_ofNat_of_zero_le h
    simp
  · obtain ⟨n, hn⟩ := Int.exists_eq_neg_ofNat (le_of_lt (not_le.mp h))
    subst hn
    simp

/-- A power of two is positive. -/
theorem pow2_pos (e : Int) : 0 < pow2 e := by
  rw [pow2_eq_zpow]
  positivity

/-- The powers of two grow with the exponent. -/
theorem pow2_le_pow2 {a b : Int} (h : a ≤ b) : pow2 a ≤ pow2 b := by
  rw [pow2_eq_zpow, pow2_eq_zpow]
  exact zpow_le_zpow_right₀ (by norm_num) h

/-- The power of two of a sum of exponents. -/
theorem pow2_add (a b : Int) : pow2 (a + b) = pow2 a * pow2 b := by
  rw [pow2_eq_zpow, pow2_eq_zpow, pow2_eq_zpow, zpow_add₀ (by norm_num)]

/-- What the bisection returns: an exponent `r` of the interval such that, among the
exponents `k` of the interval above `lo`, `2 ^ k <= x` holds exactly up to `r`. -/
theorem binade_search_spec (x : ℚ) :
    ∀ (fuel : Nat) (lo : Int),
      lo ≤ binade_search x fuel lo ∧ binade_search x fuel lo < lo + 2 ^ fuel ∧
      ∀ k, lo < k → k < lo + 2 ^ fuel → (pow2 k ≤ x ↔ k ≤ binade_search x fuel lo) := by
  intro fuel
  induction fuel with
  | zero =>
    intro lo
    refine ⟨le_rfl, by simp [binade_search], ?_⟩
    intro k h1 h2
    simp at h2
    omega
  | succ n ih =>
    intro lo
    have hpow : (2 : Int) ^ (n + 1) = 2 ^ n + 2 ^ n := by ring
    have hpos : (0 : Int) < 2 ^ n := by positivity
    unfold binade_search
    split_ifs with hmid
    · obtain ⟨h1, h2, h3⟩ := ih (lo + 2 ^ n)
      refine ⟨by omega, by omega, ?_⟩
      intro k hk1 hk2
      by_cases hk : lo + 2 ^ n < k
      · exact h3 k hk (by omega)
      · have hle : k ≤ lo + 2 ^ n := not_lt.mp hk
        constructor
        · intro _; omega
        · intro _; exact le_trans (pow2_le_pow2 hle) hmid
    · obtain ⟨h1, h2, h3⟩ := ih lo
      refine ⟨h1, by omega, ?_⟩
      intro k hk1 hk2
      by_cases hk : k < lo + 2 ^ n
      · exact h3 k hk1 hk
      · have hle : lo + 2 ^ n ≤ k := not_lt.mp hk
        constructor
        · intro hx
          exact absurd (le_trans (pow2_le_pow2 hle) hx) hmid
        · intro hr; omega

/-- The binade is not below the least exponent of the format. -/
theorem binade_ge (x : ℚ) : -1022 ≤ binade x :=
  (binade_search_spec |x| 11 (-1022)).1

/-- The binade is not above the range of the bisection. -/
theorem binade_le (x : ℚ) : binade x ≤ 1025 := by
  have h := (binade_search_spec |x| 11 (-1022)).2.1
  unfold binade
  norm_num at h
  omega

/-- Above the least binade, `x` is at least the power of two of its binade. -/
theorem pow2_binade_le {x : ℚ} (h : -1022 < binade x) : pow2 (binade x) ≤ |x| := by
  have hs := (binade_search_spec |x| 11 (-1022)).2.2 (binade x) h
    (binade_search_spec |x| 11 (-1022)).2.1
  exact hs.mpr le_rfl

/-- Below the greatest binade, `x` is below the next power of two. -/
theorem lt_pow2_binade_succ {x : ℚ} (h : binade x < 1025) : |x| < pow2 (binade x + 1) := by
  have hs := (binade_search_spec |x| 11 (-1022)).2.2 (binade x + 1)
    (by have := binade_ge x; omega) (by norm_num; omega)
  by_contra hlt
  have := hs.mp (not_lt.mp hlt)
  unfold binade at this
  omega

/-- The binade grows with the magnitude. -/
theorem binade_mono {x y : ℚ} (h : |x| ≤ |y|) : binade x ≤ binade y := by
  by_cases hx : -1022 < binade x
  · have h1 := pow2_binade_le hx
    have hs := (binade_search_spec |y| 11 (-1022)).2.2 (binade x) hx
      (by have := binade_le x; norm_num; omega)
    exact hs.mp (le_trans h1 h)
  · have := binade_ge y
    omega

/-- The distance between neighbouring doubles is positive. -/
theorem ulp_pos (x : ℚ) : 0 < ulp x := pow2_pos _

/-- Rounding to the nearest integer does not go below an integer that lies below. -/
theorem le_round_half_even {n : Int} {y : ℚ} (h : (n : ℚ) ≤ y) : n ≤ round_half_even y := by
  have hf : n ≤ ⌊y⌋ := Int.le_floor.mpr h
  unfold round_half_even
  split_ifs <;> omega

/-- Rounding a nonnegative value gives a nonnegative double. -/
theorem round_to_double_nonneg {x : ℚ} (hx : 0 ≤ x) : 0 ≤ round_to_double x := by
  unfold round_to_double
  have h0 : ((0 : Int) : ℚ) ≤ x / ulp x := by
    simpa using div_nonneg hx (ulp_pos x).le
  have h1 : (0 : Int) ≤ round_half_even (x / ulp x) := le_round_half_even h0
  exact mul_nonneg (by exact_mod_cast h1) (ulp_pos x).le

/-- Rounding does not go below a nonnegative double that lies below. -/
theorem le_round_to_double {a x : ℚ} (ha : round_to_double a = a) (h0 : 0 ≤ a)
    (hax : a ≤ x) : a ≤ round_to_double x := by
  have hx0 : 0 ≤ x := le_trans h0 hax
  have habs : |a| ≤ |x| := by rwa [abs_of_nonneg h0, abs_of_nonneg hx0]
  have hbin : binade a ≤ binade x := binade_mono habs
  rcases eq_or_lt_of_le hbin with heq | hlt
  · -- same binade: the same grid
    have hulp : ulp a = ulp x := by unfold ulp; rw [heq]
    have hgrid : ((round_half_even (a / ulp a) : Int) : ℚ) ≤ x / ulp x := by
      have h1 : ((round_half_even (a / ulp a) : Int) : ℚ) = a / ulp a := by
        have := ha
        unfold round_to_double at this
        field_simp [(ulp_pos a).ne']
        linarith
      rw [h1, hulp]
      exact div_le_div_of_nonneg_right hax (ulp_pos x).le
    have hle := le_round_half_even hgrid
    unfold round_to_double
    calc a = round_half_even (a / ulp a) * ulp a := by
            have := ha
            unfold round_to_double at this
            linarith
      _ = round_half_even (a / ulp a) * ulp x := by rw [hulp]
      _ ≤ round_half_even (x / ulp x) * ulp x :=
            mul_le_mul_of_nonneg_right (by exact_mod_cast hle) (ulp_pos x).le
  · -- a lower binade: the rounded value is at least the power of two in between
    have hlow : -1022 < binade x := by have := binade_ge a; omega
    have h1 : pow2 (binade x) ≤ x := by
      have := pow2_binade_le hlow
      rwa [abs_of_nonneg hx0] at this
    have h2 : a < pow2 (binade a + 1) := by
      have := lt_pow2_binade_succ (x := a) (by have := binade_le x; omega)
      rwa [abs_of_nonneg h0] at this
    have h3 : pow2 (binade a + 1) ≤ pow2 (binade x) := pow2_le_pow2 (by omega)
    have hsplit : pow2 (binade x) = pow2 52 * ulp x := by
      unfold ulp
      rw [← pow2_add]
      congr 1
      ring
    have h52 : pow2 52 = (((2 : Int) ^ 52 : Int) : ℚ) := by
      rw [pow2_eq_zpow]
      norm_num
    have hgrid : ((((2 : Int) ^ 52 : Int)) : ℚ) ≤ x / ulp x := by
      rw [le_div_iff₀ (ulp_pos x), ← h52, ← hsplit]
      exact h1
    have hle := le_round_half_even hgrid
    unfold round_to_double
    have : pow2 (binade x) ≤ round_half_even (x / ulp x) * ulp x := by
      rw [hsplit, h52]
      exact mul_le_mul_of_nonneg_right (by exact_mod_cast hle) (ulp_pos x).le
    linarith


/-! ## Lemmas on the transitions in rounded arithmetic -/

/-- Without rounding, the rounded seize is the seize. -/
theorem SeizeEvent.try_to_start_rounded_id_seize (self : SeizeEvent) (w : World) :
    self.try_to_start_rounded id w = self.try_to_start w := rfl

/-- Without rounding, the rounded release is the release. -/
theorem ReleaseEvent.try_to_start_rounded_id_release (self : ReleaseEvent) (w : World) :
    self.try_to_start_rounded id w = self.try_to_start w := rfl

/-- The level after a rounded increment. -/
@[simp] theorem Monitor.get_last_value_record_increment_rounded (fl : ℚ → ℚ) (m : Monitor)
    (t a : ℚ) :
    (m.record_increment_rounded fl t a).get_last_value = fl (m.get_last_value + a) := by
  simp [Monitor.record_increment_rounded]

/-- The level after a rounded decrement. -/
@[simp] theorem Monitor.get_last_value_record_decrement_rounded (fl : ℚ → ℚ) (m : Monitor)
    (t a : ℚ) :
    (m.record_decrement_rounded fl t a).get_last_value = fl (m.get_last_value - a) := by
  simp [Monitor.record_decrement_rounded]

/-- An admitted seize leaves the server level at the rounded sum of level and amount. -/
theorem SeizeEvent.serve_level_of_admitted_rounded (fl : ℚ → ℚ) (self : SeizeEvent)
    (w : World) (h : (self.try_to_start_rounded fl w).value? = some true) :
    (self.try_to_start_rounded fl w).world.resource.serve_mon.get_last_value
      = fl (w.resource.serve_mon.get_last_value + self.resource_amount) := by
  unfold SeizeEvent.try_to_start_rounded at h ⊢
  simp only at h ⊢
  split_ifs at h ⊢ <;> simp_all [Outcome.value?, Outcome.world]

/-- A seize call leaves the amount of the request alone, and either leaves the queue
level and the request's own contribution alone, or moves the queue level to the rounded
value of the level with the contribution replaced. -/
theorem SeizeEvent.queue_level_balance_rounded (fl : ℚ → ℚ) (e : SeizeEvent) (w : World) :
    (e.try_to_start_rounded fl w).self.resource_amount = e.resource_amount ∧
    (((e.try_to_start_rounded fl w).world.resource.queue_mon.get_last_value
          = w.resource.queue_mon.get_last_value ∧
        (e.try_to_start_rounded fl w).self.queued_amount = e.queued_amount) ∨
      (e.try_to_start_rounded fl w).world.resource.queue_mon.get_last_value
        = fl (w.resource.queue_mon.get_last_value - e.queued_amount
            + (e.try_to_start_rounded fl w).self.queued_amount)) := by
  unfold SeizeEvent.try_to_start_rounded
  simp only
  split_ifs <;> simp_all [Outcome.world, Outcome.self, SeizeEvent.queued_amount]

/-- A release call leaves the queue monitor alone. -/
theorem ReleaseEvent.queue_mon_unchanged_rounded (fl : ℚ → ℚ) (e : ReleaseEvent)
    (w : World) :
    (e.try_to_start_rounded fl w).world.resource.queue_mon = w.resource.queue_mon := by
  unfold ReleaseEvent.try_to_start_rounded
  simp only
  split_ifs <;> simp [Outcome.world]

/-- Replacing one element of a list changes the sum of a function over it by the
difference at that element. -/
theorem sum_map_set {α : Type} (f : α → ℚ) (x : α) :
    ∀ (l : List α) (i : Nat) (a : α), l[i]? = some a →
      ((l.set i x).map f).sum = (l.map f).sum - f a + f x := by
  intro l
  induction l with
  | nil => intro i a h; simp at h
  | cons b rest ih =>
    intro i a h
    cases i with
    | zero =>
      simp only [List.getElem?_cons_zero, Option.some.injEq] at h
      simp only [List.set_cons_zero, List.map_cons, List.sum_cons, h]
      ring
    | succ j =>
      simp only [List.getElem?_cons_succ] at h
      simp only [List.set_cons_succ, List.map_cons, List.sum_cons, ih j a h]
      ring

/-- The enqueued amounts are the sum of a sub-collection of the amounts. -/
theorem System.queued_amount_mem_sublists (s : System) :
    ∃ l ∈ (s.requests.map (fun p => p.1.resource_amount)).sublists,
      s.queued_amount = l.sum := by
  refine ⟨(s.requests.filter (fun p => p.1.enqueued)).map (fun p => p.1.resource_amount),
    ?_, ?_⟩
  · rw [List.mem_sublists]
    exact List.Sublist.map _ (List.filter_sublist _)
  · unfold System.queued_amount
    induction s.requests with
    | nil => simp
    | cons p rest ih =>
      by_cases hp : p.1.enqueued = true
      · simp only [List.map_cons, List.sum_cons, List.filter_cons, hp, if_true, ih]
        simp [SeizeEvent.queued_amount, hp]
      · simp only [List.map_cons, List.sum_cons, List.filter_cons, hp, if_false, ih]
        simp [SeizeEvent.queued_amount, hp]

/-- One call keeps the queue level equal to the enqueued amounts, and keeps the amounts,
when no sum of a sub-collection of the amounts is changed by the rounding. -/
theorem System.call_rounded_keeps_balance (fl : ℚ → ℚ) (s : System) (c : Call)
    (amounts : List ℚ)
    (hamounts : s.requests.map (fun p => p.1.resource_amount) = amounts)
    (hexact : ∀ l ∈ amounts.sublists, fl l.sum = l.sum)
    (h : s.resource.queue_mon.get_last_value = s.queued_amount) :
    (s.call_rounded fl c).resource.queue_mon.get_last_value
      = (s.call_rounded fl c).queued_amount ∧
    (s.call_rounded fl c).requests.map (fun p => p.1.resource_amount) = amounts := by
  have hkeep : (s.call_rounded fl c).requests.map (fun p => p.1.resource_amount)
      = amounts := by
    rw [← hamounts]
    cases c with
    | seize i t now =>
      cases hi : s.requests[i]? with
      | none => simp [System.call_rounded, hi]
      | some p =>
        obtain ⟨e, ent⟩ := p
        have hb := SeizeEvent.queue_level_balance_rounded fl (e.schedule t)
          ⟨s.resource, ent, now⟩
        have ha : (e.schedule t).resource_amount = e.resource_amount := rfl
        simp only [System.call_rounded, hi]
        apply List.ext_getElem?
        intro j
        simp only [List.getElem?_map, List.getElem?_set]
        by_cases hij : i = j
        · subst hij
          have hlt : i < s.requests.length := by
            rcases Nat.lt_or_ge i s.requests.length with hl | hl
            · exact hl
            · rw [List.getElem?_eq_none hl] at hi
              cases hi
          simp [hlt, hi, hb.1, ha]
        · simp [hij]
    | release e ent now => simp [System.call_rounded]
  refine ⟨?_, hkeep⟩
  cases c with
  | seize i t now =>
    cases hi : s.requests[i]? with
    | none => simp [System.call_rounded, hi, h]
    | some p =>
      obtain ⟨e, ent⟩ := p
      have hb := SeizeEvent.queue_level_balance_rounded fl (e.schedule t)
        ⟨s.resource, ent, now⟩
      have hq : (e.schedule t).queued_amount = e.queued_amount := rfl
      obtain ⟨l, hl, hsum⟩ :=
        System.queued_amount_mem_sublists (s.call_rounded fl (.seize i t now))
      rw [hkeep] at hl
      have hfl := hexact l hl
      rw [← hsum] at hfl
      have hnew : (s.call_rounded fl (.seize i t now)).queued_amount
          = s.queued_amount - e.queued_amount
            + ((e.schedule t).try_to_start_rounded fl
                ⟨s.resource, ent, now⟩).self.queued_amount := by
        simp only [System.call_rounded, hi, System.queued_amount]
        rw [sum_map_set (fun p => p.1.queued_amount) _ s.requests i (e, ent) hi]
      have hlevel : (s.call_rounded fl (.seize i t now)).resource.queue_mon.get_last_value
          = ((e.schedule t).try_to_start_rounded fl
              ⟨s.resource, ent, now⟩).world.resource.queue_mon.get_last_value := by
        simp only [System.call_rounded, hi]
      rw [hlevel]
      rcases hb.2 with ⟨h1, h2⟩ | h1
      · rw [h1, hnew, h2, hq]
        simp only at h ⊢
        rw [h]
        ring
      · rw [h1, hq]
        simp only at h ⊢
        rw [h, ← hnew, hfl]
  | release e ent now =>
    simp only [System.call_rounded, System.queued_amount]
    rw [ReleaseEvent.queue_mon_unchanged_rounded]
    exact h

/-- A sequence of calls keeps the queue level equal to the enqueued amounts, and keeps
the amounts, when no sum of a sub-collection of the amounts is changed by the rounding. -/
theorem System.run_rounded_keeps_balance (fl : ℚ → ℚ) (amounts : List ℚ)
    (hexact : ∀ l ∈ amounts.sublists, fl l.sum = l.sum) (calls : List Call) :
    ∀ (s : System), s.requests.map (fun p => p.1.resource_amount) = amounts →
      s.resource.queue_mon.get_last_value = s.queued_amount →
      (s.run_rounded fl calls).resource.queue_mon.get_last_value
        = (s.run_rounded fl calls).queued_amount ∧
      (s.run_rounded fl calls).requests.map (fun p => p.1.resource_amount) = amounts := by
  induction calls with
  | nil => intro s ha h; exact ⟨h, ha⟩
  | cons c rest ih =>
    intro s ha h
    have h1 := System.call_rounded_keeps_balance fl s c amounts ha hexact h
    have h2 := ih (s.call_rounded fl c) h1.2 h1.1
    simp only [System.run_rounded, List.foldl_cons] at h2 ⊢
    exact h2


/-- The enqueued amounts of requests with nonnegative amounts are nonnegative. -/
theorem System.queued_amount_nonneg (s : System)
    (h : ∀ a ∈ s.requests.map (fun p => p.1.resource_amount), (0 : ℚ) ≤ a) :
    0 ≤ s.queued_amount := by
  unfold System.queued_amount
  apply List.sum_nonneg
  intro x hx
  simp only [List.mem_map] at hx h
  obtain ⟨p, hp, rfl⟩ := hx
  unfold SeizeEvent.queued_amount
  split_ifs
  · exact h _ ⟨p, hp, rfl⟩
  · exact le_rfl

/-- With nobody enqueued, the enqueued amounts sum to zero. -/
theorem System.queued_amount_of_fresh (s : System)
    (h : ∀ p ∈ s.requests, p.1.enqueued = false) : s.queued_amount = 0 := by
  unfold System.queued_amount
  apply List.sum_eq_zero
  intro x hx
  simp only [List.mem_map] at hx
  obtain ⟨p, hp, rfl⟩ := hx
  simp [SeizeEvent.queued_amount, h p hp]

/-! ## Claims on double arithmetic -/

/-- C16, as stated, fails in double arithmetic: on a resource at server level 0.1, a
seize of 0.2 returns true, the release of 0.2 called next does not throw and returns
true, but the server level it leaves is 0.10000000000000003, above the 0.1 it started
from: the sum 0.1 + 0.2 is rounded. -/
theorem round_trip_misses_level :
    tenth_seize.value? = some true ∧
    tenth_world.resource.serve_mon.get_last_value ≥ 0 ∧
    (request_of fifth 0).resource_amount ≥ 0 ∧
    fifth_seize.value? = some true ∧
    (release_of fifth 1).resource_amount = (request_of fifth 0).resource_amount ∧
    fifth_world.now ≥ (release_of fifth 1).early_start_time ∧
    fifth_release.value? = some true ∧
    fifth_release.world.resource.serve_mon.get_last_value
      > tenth_world.resource.serve_mon.get_last_value ∧
    fifth_release.world.resource.serve_mon.get_last_value
      ≠ tenth_world.resource.serve_mon.get_last_value := by
  have hgt : fifth_release.world.resource.serve_mon.get_last_value
      > tenth_world.resource.serve_mon.get_last_value := by with_unfolding_all decide
  exact ⟨by with_unfolding_all decide, by with_unfolding_all decide,
    by with_unfolding_all decide, by with_unfolding_all decide, rfl,
    by with_unfolding_all decide, by with_unfolding_all decide, hgt, ne_of_gt hgt⟩

/-- C16, amended: in double arithmetic, on a resource at server level `s >= 0`, after a
seize of an amount `a >= 0` that returns true, a release of the same amount on the same
resource, called next with `*now >= early_start_time`, does not throw, returns true and
leaves the server level at `(s + a) - a` with the sum and the difference each rounded to
the nearest double; that level is exactly `s` whenever the sum `s + a` is exact. -/
theorem seize_release_round_trip (seize : SeizeEvent) (w : World) (release : ReleaseEvent)
    (ent : Entity) (now : ℚ)
    (hlevel : w.resource.serve_mon.get_last_value ≥ 0)
    (hamount : seize.resource_amount ≥ 0)
    (hdouble : round_to_double seize.resource_amount = seize.resource_amount)
    (hseized : (seize.try_to_start_rounded round_to_double w).value? = some true)
    (hsame : release.resource_amount = seize.resource_amount)
    (hnow : now ≥ release.early_start_time) :
    (release.try_to_start_rounded round_to_double
        ⟨(seize.try_to_start_rounded round_to_double w).world.resource, ent, now⟩).what?
      = none ∧
    (release.try_to_start_rounded round_to_double
        ⟨(seize.try_to_start_rounded round_to_double w).world.resource, ent, now⟩).value?
      = some true ∧
    (release.try_to_start_rounded round_to_double
        ⟨(seize.try_to_start_rounded round_to_double w).world.resource, ent,
          now⟩).world.resource.serve_mon.get_last_value
      = round_to_double
          (round_to_double (w.resource.serve_mon.get_last_value + seize.resource_amount)
            - seize.resource_amount) ∧
    (round_to_double (w.resource.serve_mon.get_last_value + seize.resource_amount)
        = w.resource.serve_mon.get_last_value + seize.resource_amount →
      round_to_double w.resource.serve_mon.get_last_value
        = w.resource.serve_mon.get_last_value →
      (release.try_to_start_rounded round_to_double
          ⟨(seize.try_to_start_rounded round_to_double w).world.resource, ent,
            now⟩).world.resource.serve_mon.get_last_value
        = w.resource.serve_mon.get_last_value) := by
  have hup := SeizeEvent.serve_level_of_admitted_rounded round_to_double seize w hseized
  have hnow' : ¬ release.early_start_time > now := not_lt.mpr hnow
  have hcover : seize.resource_amount
      ≤ round_to_double (w.resource.serve_mon.get_last_value + seize.resource_amount) :=
    le_round_to_double hdouble hamount (by linarith)
  have hheld : round_to_double
      ((seize.try_to_start_rounded round_to_double w).world.resource.serve_mon.get_last_value
        - release.resource_amount) ≥ 0 := by
    rw [hup, hsame]
    exact round_to_double_nonneg (by linarith)
  generalize (seize.try_to_start_rounded round_to_double w).world.resource = r
    at hup hheld ⊢
  have hfinal : (release.try_to_start_rounded round_to_double
      ⟨r, ent, now⟩).world.resource.serve_mon.get_last_value
      = round_to_double
          (round_to_double (w.resource.serve_mon.get_last_value + seize.resource_amount)
            - seize.resource_amount) := by
    unfold ReleaseEvent.try_to_start_rounded
    simp only
    rw [if_neg hnow', if_pos hheld]
    simp [Outcome.world, hup, hsame]
  refine ⟨?_, ?_, hfinal, ?_⟩
  · unfold ReleaseEvent.try_to_start_rounded
    simp only
    rw [if_neg hnow', if_pos hheld]
    rfl
  · unfold ReleaseEvent.try_to_start_rounded
    simp only
    rw [if_neg hnow', if_pos hheld]
    rfl
  · intro hexact hs
    rw [hfinal, hexact, add_sub_cancel_right, hs]

/-- C16, amended, at the levels 0.1 with the amount 0.2, where the sum rounds, and at the
level 1/2 with the amount 1/4, where it is exact and the level comes back to 1/2. -/
theorem seize_release_round_trip_witness :
    (tenth_world.resource.serve_mon.get_last_value ≥ 0 ∧
      (request_of fifth 0).resource_amount ≥ 0 ∧
      round_to_double (request_of fifth 0).resource_amount
        = (request_of fifth 0).resource_amount ∧
      fifth_seize.value? = some true ∧
      fifth_world.now ≥ (release_of fifth 1).early_start_time ∧
      fifth_release.what? = none ∧
      fifth_release.value? = some true) ∧
    (quarter_world.resource.serve_mon.get_last_value = 1/2 ∧
      (request_of (1/4) 0).resource_amount ≥ 0 ∧
      round_to_double (request_of (1/4) 0).resource_amount
        = (request_of (1/4) 0).resource_amount ∧
      quarter_seize.value? = some true ∧
      round_to_double (quarter_world.resource.serve_mon.get_last_value
          + (request_of (1/4) 0).resource_amount)
        = quarter_world.resource.serve_mon.get_last_value
          + (request_of (1/4) 0).resource_amount ∧
      round_to_double quarter_world.resource.serve_mon.get_last_value
        = quarter_world.resource.serve_mon.get_last_value ∧
      quarter_release.world.resource.serve_mon.get_last_value
        = quarter_world.resource.serve_mon.get_last_value) :=
  have a1 : tenth_world.resource.serve_mon.get_last_value ≥ 0 := by
    with_unfolding_all decide
  have a2 : (request_of fifth 0).resource_amount ≥ 0 := by with_unfolding_all decide
  have a3 : round_to_double (request_of fifth 0).resource_amount
      = (request_of fifth 0).resource_amount :=
    le_antisymm (by with_unfolding_all decide) (by with_unfolding_all decide)
  have a4 : fifth_seize.value? = some true := by with_unfolding_all decide
  have a5 : fifth_world.now ≥ (release_of fifth 1).early_start_time := by
    with_unfolding_all decide
  have b1 : quarter_world.resource.serve_mon.get_last_value = 1/2 := by
    with_unfolding_all decide
  have b1' : quarter_world.resource.serve_mon.get_last_value ≥ 0 := by
    with_unfolding_all decide
  have b2 : (request_of (1/4) 0).resource_amount ≥ 0 := by with_unfolding_all decide
  have b3 : round_to_double (request_of (1/4) 0).resource_amount
      = (request_of (1/4) 0).resource_amount := by with_unfolding_all decide
  have b4 : quarter_seize.value? = some true := by with_unfolding_all decide
  have b5 : round_to_double (quarter_world.resource.serve_mon.get_last_value
        + (request_of (1/4) 0).resource_amount)
      = quarter_world.resource.serve_mon.get_last_value
        + (request_of (1/4) 0).resource_amount := by with_unfolding_all decide
  have b6 : round_to_double quarter_world.resource.serve_mon.get_last_value
      = quarter_world.resource.serve_mon.get_last_value := by with_unfolding_all decide
  have b7 : (1 : ℚ) ≥ (release_of (1/4) 1).early_start_time := by
    with_unfolding_all decide
  ⟨⟨a1, a2, a3, a4, a5,
      (seize_release_round_trip (request_of fifth 0) tenth_world (release_of fifth 1)
        fifth_seize.world.parent_entity 1 a1 a2 a3 a4 rfl a5).1,
      (seize_release_round_trip (request_of fifth 0) tenth_world (release_of fifth 1)
        fifth_seize.world.parent_entity 1 a1 a2 a3 a4 rfl a5).2.1⟩,
    ⟨b1, b2, b3, b4, b5, b6,
      (seize_release_round_trip (request_of (1/4) 0) quarter_world (release_of (1/4) 1)
        quarter_seize.world.parent_entity 1 b1' b2 b3 b4 rfl b7).2.2.2 b5 b6⟩⟩

/-- C19, as stated, fails in double arithmetic: with requests for 3, 3 and 0.8 on a
resource of capacity 3, starting at queue level 0 with nobody enqueued, after 3 and 0.8
are enqueued and 3 is served the queue level is 0.7999999999999998, below the 0.8 that is
still enqueued; after 0.8 is served too, nobody is enqueued and the queue level is
negative. -/
theorem queue_level_drifts_from_enqueued_amount :
    three_requests.resource.queue_mon.get_last_value = 0 ∧
    (∀ p ∈ three_requests.requests, p.1.enqueued = false) ∧
    (∀ p ∈ three_requests.requests, p.1.resource_amount ≥ 0) ∧
    (three_requests.run_rounded round_to_double three_requests_calls).queued_amount
      = four_fifths ∧
    (three_requests.run_rounded round_to_double
        three_requests_calls).resource.queue_mon.get_last_value
      < (three_requests.run_rounded round_to_double three_requests_calls).queued_amount ∧
    (three_requests.run_rounded round_to_double three_requests_more_calls).queued_amount
      = 0 ∧
    (three_requests.run_rounded round_to_double
        three_requests_more_calls).resource.queue_mon.get_last_value < 0 := by
  exact ⟨by with_unfolding_all decide, by with_unfolding_all decide,
    by with_unfolding_all decide,
    le_antisymm (by with_unfolding_all decide) (by with_unfolding_all decide),
    by with_unfolding_all decide,
    le_antisymm (by with_unfolding_all decide) (by with_unfolding_all decide),
    by with_unfolding_all decide⟩

/-- C19, amended: in double arithmetic, in a system of one resource and finitely many
seize events with amounts `>= 0`, starting at queue level 0 with no event enqueued, if
the sum of the amounts of every sub-collection of the events is exactly a double (so that
no increment or decrement of the queue level rounds), then after every sequence of calls
(a `try_to_start` on any of the events, with any `*now` and `early_start_time`, or on
any release) the amounts are what they were and the queue level equals the sum of the
amounts of the events whose `enqueued` flag is true; so it is never negative. -/
theorem queue_level_is_enqueued_amount (s : System) (calls : List Call)
    (hempty : s.resource.queue_mon.get_last_value = 0)
    (hfresh : ∀ p ∈ s.requests, p.1.enqueued = false)
    (hamount : ∀ p ∈ s.requests, p.1.resource_amount ≥ 0)
    (hexact : ∀ l ∈ (s.requests.map (fun p => p.1.resource_amount)).sublists,
      round_to_double l.sum = l.sum) :
    (s.run_rounded round_to_double calls).requests.map (fun p => p.1.resource_amount)
      = s.requests.map (fun p => p.1.resource_amount) ∧
    (s.run_rounded round_to_double calls).resource.queue_mon.get_last_value
      = (s.run_rounded round_to_double calls).queued_amount ∧
    (s.run_rounded round_to_double calls).resource.queue_mon.get_last_value ≥ 0 := by
  have h0 : s.resource.queue_mon.get_last_value = s.queued_amount := by
    rw [hempty, System.queued_amount_of_fresh s hfresh]
  have h := System.run_rounded_keeps_balance round_to_double _ hexact calls s rfl h0
  refine ⟨h.2, h.1, ?_⟩
  rw [h.1]
  apply System.queued_amount_nonneg
  rw [h.2]
  intro a ha
  simp only [List.mem_map] at ha
  obtain ⟨p, hp, rfl⟩ := ha
  exact hamount p hp

/-- C19, amended, on requests for 1/2 and 3/4 of a resource of capacity 1/2 (every sum of
them is a double): after the first is served and the second enqueued, the queue level is
3/4, the enqueued amount. -/
theorem queue_level_is_enqueued_amount_witness :
    dyadic_requests.resource.queue_mon.get_last_value = 0 ∧
    (∀ p ∈ dyadic_requests.requests, p.1.enqueued = false) ∧
    (∀ p ∈ dyadic_requests.requests, p.1.resource_amount ≥ 0) ∧
    (∀ l ∈ (dyadic_requests.requests.map (fun p => p.1.resource_amount)).sublists,
      round_to_double l.sum = l.sum) ∧
    (dyadic_requests.run_rounded round_to_double dyadic_calls).queued_amount = 3/4 ∧
    (dyadic_requests.run_rounded round_to_double
        dyadic_calls).resource.queue_mon.get_last_value
      = (dyadic_requests.run_rounded round_to_double dyadic_calls).queued_amount :=
  have h1 : dyadic_requests.resource.queue_mon.get_last_value = 0 := by
    with_unfolding_all decide
  have h2 : ∀ p ∈ dyadic_requests.requests, p.1.enqueued = false := by
    with_unfolding_all decide
  have h3 : ∀ p ∈ dyadic_requests.requests, p.1.resource_amount ≥ 0 := by
    with_unfolding_all decide
  have h4 : ∀ l ∈ (dyadic_requests.requests.map (fun p => p.1.resource_amount)).sublists,
      round_to_double l.sum = l.sum := by with_unfolding_all decide
  ⟨h1, h2, h3, h4, by with_unfolding_all decide,
    (queue_level_is_enqueued_amount dyadic_requests dyadic_calls h1 h2 h3 h4).2.1⟩

end Simmer
